import Mathlib

/-!
# Verification of the json-scraper core pipeline

Shallow embedding, in Lean 4, of the core logic of the basketball
match-statistics scraper:

* `src/types.ts` — `extractMatchId` and the `MatchJob` data model;
* `src/components/JobCard.tsx` (which also carries the scraper service
  module) — the proxy fallback `fetchTextWithFallback`, the link extraction
  of `fetchResultsPage`, and `downloadAsZip`;
* `src/unnamed/part_000` (the React `App`) — `generateFilenames`,
  `processJob` and `handleBulkStart`.

JavaScript strings are modelled as Lean `String`/`List Char`; loosely typed
JSON values (`any`) as the inductive `JSVal`, with `undefined` as an explicit
constructor so that the source's truthiness tests and `!== undefined`
comparisons can be translated literally.  Network effects (fetch, DOM
parsing, JSZip generation) are modelled as explicit inputs describing the
outcome of each external call; the code around those calls is translated
directly from the source.  `await` sequencing is modelled by explicit event
traces (fetches, `delay(ms)` pauses, `setJobs`/`setStatusMessage` updates).
-/

/-! ## JavaScript values (the `any`-typed JSON payloads) -/

/-- A JavaScript value as seen by the scraper's loosely typed payload
inspection.  The `undefined` constructor models JavaScript `undefined`; numbers are modelled as integers
(the payloads carry integral round numbers and scores). -/
inductive JSVal where
  | undefined : JSVal
  | null : JSVal
  | bool : Bool → JSVal
  | num : Int → JSVal
  | str : String → JSVal
  | arr : List JSVal → JSVal
  | obj : List (String × JSVal) → JSVal
deriving Repr, Inhabited

/-- JavaScript truthiness: `undefined`, `null`, `false`, `0` and `""` are
falsy, everything else (including any object or array) is truthy. -/
def truthy : JSVal → Bool
  | .undefined => false
  | .null => false
  | .bool b => b
  | .num n => n != 0
  | .str s => !s.isEmpty
  | .arr _ => true
  | .obj _ => true

/-- Property access `v.key` on a value already known not to be
`null`/`undefined` (every such access in the source is guarded).  Accessing
a property of a non-object yields `undefined`, as in JavaScript for the
properties used here. -/
def getField : JSVal → String → JSVal
  | .obj fs, k => match fs.lookup k with
    | some v => v
    | none => .undefined
  | _, _ => .undefined

/-- Array indexing `v[i]`; `undefined` when out of range or not an array. -/
def getIndex : JSVal → Nat → JSVal
  | .arr xs, i => xs.getD i .undefined
  | _, _ => .undefined

/-- Optional chaining `v?.key`: `undefined` when `v` is nullish, otherwise
plain property access. -/
def optGet (v : JSVal) (k : String) : JSVal :=
  match v with
  | .undefined => .undefined
  | .null => .undefined
  | _ => getField v k

/-- Is this value `undefined`?  Used to translate `!== undefined` tests. -/
def isUndefined : JSVal → Bool
  | .undefined => true
  | _ => false

mutual

/-- JavaScript `String(v)` coercion, for the values that can occur in the
payload fields the scraper stringifies. -/
def jsString : JSVal → String
  | .undefined => "undefined"
  | .null => "null"
  | .bool true => "true"
  | .bool false => "false"
  | .num n => toString n
  | .str s => s
  | .arr xs => String.intercalate "," (jsStringArr xs)
  | .obj _ => "[object Object]"

/-- Elements of an array under `String(·)`: `null` and `undefined` elements
render as the empty string. -/
def jsStringArr : List JSVal → List String
  | [] => []
  | .undefined :: vs => "" :: jsStringArr vs
  | .null :: vs => "" :: jsStringArr vs
  | v :: vs => jsString v :: jsStringArr vs

end

/-- The whitespace recognised by `String.prototype.trim` (restricted to the
ASCII whitespace that can occur in the payloads at hand). -/
def isJsSpace (c : Char) : Bool :=
  c = ' ' || c = '\t' || c = '\n' || c = '\r'

/-- JavaScript `s.trim()`. -/
def jsTrim (s : String) : String :=
  ⟨((s.data.dropWhile isJsSpace).reverse.dropWhile isJsSpace).reverse⟩

/-! ## `extractMatchId` (src/types.ts, lines 28-37)

`url.split('/')` is modelled on the character list of the string by
`splitOnSlash`, with the same semantics as the JavaScript single-character
split (empty string yields one empty chunk; adjacent separators yield empty
chunks). -/

/-- Model of `split('/')` on a character list, JavaScript semantics. -/
def splitOnSlash : List Char → List (List Char)
  | [] => [[]]
  | c :: rest =>
    match splitOnSlash rest with
    | [] => [[c]]
    | seg :: segs => if c = '/' then [] :: seg :: segs else (c :: seg) :: segs

/-- One character of the regex class `[0-9a-fA-F]`. -/
def isHexDigitChar (c : Char) : Bool :=
  ('0' ≤ c && c ≤ '9') || ('a' ≤ c && c ≤ 'f') || ('A' ≤ c && c ≤ 'F')

/-- The test `/^[0-9a-fA-F]{24}$/.test(s)`. -/
def isHex24 (s : List Char) : Bool :=
  s.length == 24 && s.all isHexDigitChar

/-- The non-empty chunks of `url.split('/')`:
`url.split('/').filter(p => p.length > 0)`. -/
def idChunks (url : List Char) : List (List Char) :=
  (splitOnSlash url).filter (fun p => decide (0 < p.length))

/-- Model of `extractMatchId` on a character list: take the last non-empty chunk of
the slash-split URL and return it when it is a 24-character hex string,
`null` otherwise (also when there is no non-empty chunk, where the source
reads `parts[parts.length - 1]` as `undefined`). -/
def extractMatchIdL (url : List Char) : Option (List Char) :=
  match (idChunks url).getLast? with
  | some potentialId => if isHex24 potentialId then some potentialId else none
  | none => none

/-- Model of `extractMatchId` on strings, as exported by `src/types.ts`. -/
def extractMatchId (url : String) : Option String :=
  (extractMatchIdL url.data).map fun l => ⟨l⟩

theorem sanity_extractMatchId_default :
    extractMatchId "https://www.basquetcatala.cat/estadistiques/2025/696b6acdd2a7ac0001714803"
    = some "696b6acdd2a7ac0001714803" := by decide

theorem sanity_extractMatchId_trailing_slash :
    extractMatchId "https://www.basquetcatala.cat/estadistiques/2025/696b6acdd2a7ac0001714803/"
    = some "696b6acdd2a7ac0001714803" := by decide

theorem sanity_extractMatchId_query :
    extractMatchId "https://x/696b6acdd2a7ac0001714803?currentSeason=true" = none := by
  decide

theorem sanity_extractMatchId_empty : extractMatchId "" = none := by decide

/-! ## Resource Fetcher: `fetchTextWithFallback` (scraper service, lines 146-191)

The provider list is static configuration; each provider is a name plus an
`isWrapped` flag (the relay URL construction plays no role in the fallback
logic and is omitted).  The outcome of the network call to one provider is
modelled by `ProxyResponse`: the HTTP-level `ok`/status of the proxy
response, the result of `response.json()` for the wrapped path (collapsed to
the envelope's `status.http_code`, `none` standing for a missing/nullish
envelope or status, together with `contents`, with a missing `contents`
indistinguishable from `""` by the subsequent emptiness test), and the
result of `response.text()` for the raw path. -/

structure ProxyProvider where
  name : String
  isWrapped : Bool
deriving Repr, DecidableEq

/-- The static, ordered provider list (URL templates omitted). -/
def PROXY_PROVIDERS : List ProxyProvider :=
  [ { name := "allorigins-wrapped", isWrapped := true },
    { name := "codetabs", isWrapped := false },
    { name := "corsproxy.io", isWrapped := false } ]

/-- Outcome of the network round-trip through one provider. -/
structure ProxyResponse where
  /-- Field for `response.ok`. -/
  ok : Bool
  /-- Field for `response.status`. -/
  httpStatus : Nat
  /-- For a wrapped provider, the parse of `response.json()`:
  `none` when the body is not JSON (the `await` throws), otherwise
  `some (status.http_code as an optional number, contents)`. -/
  envelope : Option (Option Nat × String)
  /-- For an unwrapped provider, `response.text()`. -/
  bodyText : String
deriving Repr, DecidableEq

/-- The failures thrown inside one provider attempt. -/
inductive FetchError where
  /-- The error `Proxy (name) returned status (status)`. -/
  | proxyStatus (name : String) (status : Nat)
  /-- The case where `response.json()` itself failed on a wrapped provider. -/
  | jsonParse
  /-- The error `Wrapped proxy returned error code: (code)`. -/
  | wrappedBad (code : Option Nat)
  /-- The error `Received empty response body`. -/
  | emptyBody
deriving Repr, DecidableEq

/-- Decoding the text out of a successful (`ok`) proxy response: unwrap the
JSON envelope for a wrapped provider (requiring `status.http_code === 200`),
or take the raw text. -/
def decodeBody (p : ProxyProvider) (r : ProxyResponse) : Except FetchError String :=
  if p.isWrapped then
    match r.envelope with
    | none => .error .jsonParse
    | some (code, contents) =>
      if code = some 200 then .ok contents
      else .error (.wrappedBad code)
  else
    .ok r.bodyText

/-- One provider attempt (the body of the `try` in the loop): any non-ok
HTTP status fails; otherwise decode the body and reject it when it is empty
or whitespace-only. -/
def attemptFetch (p : ProxyProvider) (r : ProxyResponse) : Except FetchError String :=
  if !r.ok then .error (.proxyStatus p.name r.httpStatus)
  else
    match decodeBody p r with
    | .error e => .error e
    | .ok text =>
      if text.isEmpty || (jsTrim text).isEmpty then .error .emptyBody
      else .ok text

/-- The fallback loop of `fetchTextWithFallback`: try the attempts in order,
returning the first successfully decoded non-empty body, remembering the
last error otherwise (a fixed `delay(1000)` pacing pause between failed
attempts is not observable in the result and is omitted here).  Also
returns the list of provider names actually attempted, in order.  The
second component of the error (`Option FetchError`) is `none` exactly when
no attempt ever ran (`throw lastError || new Error(...)` with a null
`lastError`). -/
def fetchTextGo : List (ProxyProvider × ProxyResponse) → Option FetchError →
    Except (Option FetchError) String × List String
  | [], last => (.error last, [])
  | (p, r) :: rest, _ =>
    match attemptFetch p r with
    | .ok text => (.ok text, [p.name])
    | .error e =>
      let out := fetchTextGo rest (some e)
      (out.1, p.name :: out.2)

/-- Model of `fetchTextWithFallback`, given the per-provider network outcomes. -/
def fetchText (attempts : List (ProxyProvider × ProxyResponse)) :
    Except (Option FetchError) String × List String :=
  fetchTextGo attempts none

/-! ## Link Extractor: `fetchResultsPage` (scraper service, lines 196-216)

DOM parsing is not modelled: the input of the extraction step is the list
of `getAttribute('href')` results of the document's anchors in document
order (`null` possible).  Everything from that point on is translated from
the source. -/

def BASE_URL : String := "https://www.basquetcatala.cat"

/-- Does the character list `l` start with `pat`? -/
def startsWithL (pat l : List Char) : Bool :=
  match pat, l with
  | [], _ => true
  | _ :: _, [] => false
  | a :: as, b :: bs => a = b && startsWithL as bs

/-- Does `l` contain `pat` as a contiguous substring (JavaScript
`String.prototype.includes`)? -/
def containsSub (l pat : List Char) : Bool :=
  match l with
  | [] => pat.isEmpty
  | _ :: rest => startsWithL pat l || containsSub rest pat

/-- The test `href.includes('/estadistiques/')`. -/
def hasStatsFragment (href : String) : Bool :=
  containsSub href.data "/estadistiques/".data

/-- URL normalization: absolute hrefs kept, relative ones prefixed with the
site origin (adding a `/` separator when the href does not start with one). -/
def normalizeHref (href : String) : String :=
  if startsWithL "http".data href.data then href
  else BASE_URL ++ (if startsWithL "/".data href.data then "" else "/") ++ href

/-- The normalized candidate list: drop `null` hrefs, keep those containing
`/estadistiques/`, normalize each. -/
def candidateLinks (anchors : List (Option String)) : List String :=
  ((anchors.filterMap id).filter hasStatsFragment).map normalizeHref

/-- Deduplication worker: `Array.from(new Set(xs))` keeps the first
occurrence of each element, in encounter order. -/
def dedupGo (seen : List String) : List String → List String
  | [] => []
  | x :: xs => if seen.contains x then dedupGo seen xs else x :: dedupGo (x :: seen) xs

/-- Model of `Array.from(new Set(xs))`. -/
def insertionDedup (xs : List String) : List String :=
  dedupGo [] xs

/-- The link-extraction step of `fetchResultsPage`. -/
def extractMatchLinks (anchors : List (Option String)) : List String :=
  insertionDedup (candidateLinks anchors)

/-- Model of `fetchResultsPage`: the page fetch (through the proxy fallback) either
yields the document's anchor hrefs or fails; a fetch failure is logged and
rethrown, a successful fetch always yields the (possibly empty) extracted
link list. -/
def fetchResultsPage (page : Except String (List (Option String))) :
    Except String (List String) :=
  match page with
  | .ok anchors => .ok (extractMatchLinks anchors)
  | .error e => .error e

theorem sanity_extractMatchLinks :
    extractMatchLinks
      [some "/estadistiques/2025/aaa", none, some "/altres/x",
       some "https://z.example/estadistiques/b", some "/estadistiques/2025/aaa",
       some "x/estadistiques/rel"]
    = ["https://www.basquetcatala.cat/estadistiques/2025/aaa",
       "https://z.example/estadistiques/b",
       "https://www.basquetcatala.cat/x/estadistiques/rel"] := by decide

/-! ## Filename Deriver: `generateFilenames` (App, lines 70-110) -/

structure FileNames where
  statsName : String
  movesName : String
deriving Repr, DecidableEq

/-- Round lookup on a truthy payload: root `jornada` when truthy, else
`match.jornada` when `match` and that field are truthy, else `'0'`. -/
def deriveRound (stats : JSVal) : String :=
  if truthy (getField stats "jornada") then jsString (getField stats "jornada")
  else if truthy (getField stats "match") &&
      truthy (getField (getField stats "match") "jornada") then
    jsString (getField (getField stats "match") "jornada")
  else "0"

/-- The chained access `stats.teams[i]?.data?.score`. -/
def teamScore (stats : JSVal) (i : Nat) : JSVal :=
  optGet (optGet (getIndex (getField stats "teams") i) "data") "score"

/-- Local points on a truthy payload: `teams[0]?.data?.score` when `teams`
is truthy and the score is not `undefined`, else root `resultatLocal`, else
`match.resultatLocal`, else `'0'`. -/
def deriveLocalPoints (stats : JSVal) : String :=
  if truthy (getField stats "teams") && !isUndefined (teamScore stats 0) then
    jsString (teamScore stats 0)
  else if !isUndefined (getField stats "resultatLocal") then
    jsString (getField stats "resultatLocal")
  else if truthy (getField stats "match") &&
      !isUndefined (getField (getField stats "match") "resultatLocal") then
    jsString (getField (getField stats "match") "resultatLocal")
  else "0"

/-- Visitor points, symmetric with `teams[1]` and `resultatVisitant`. -/
def deriveVisitorPoints (stats : JSVal) : String :=
  if truthy (getField stats "teams") && !isUndefined (teamScore stats 1) then
    jsString (teamScore stats 1)
  else if !isUndefined (getField stats "resultatVisitant") then
    jsString (getField stats "resultatVisitant")
  else if truthy (getField stats "match") &&
      !isUndefined (getField (getField stats "match") "resultatVisitant") then
    jsString (getField (getField stats "match") "resultatVisitant")
  else "0"

/-- Model of `generateFilenames(stats, index)`: derive round and scores (placeholder
`'0'` throughout when the payload is falsy — in particular absent), trim,
and interpolate `J{x}_P{y}_{pl}_{pv}.json` / `J{x}_P{y}_Moves.json`. -/
def generateFilenames (stats : JSVal) (index : Nat) : FileNames :=
  let jornada := if truthy stats then deriveRound stats else "0"
  let pl := if truthy stats then deriveLocalPoints stats else "0"
  let pv := if truthy stats then deriveVisitorPoints stats else "0"
  let x := jsTrim jornada
  let y := toString index
  let plClean := jsTrim pl
  let pvClean := jsTrim pv
  { statsName := "J" ++ x ++ "_P" ++ y ++ "_" ++ plClean ++ "_" ++ pvClean ++ ".json"
    movesName := "J" ++ x ++ "_P" ++ y ++ "_Moves.json" }

/-- The payload of the spec's first filename test case:
`{teams:[{data:{score:"88"}}, {data:{score:"76"}}], jornada:5}`. -/
def samplePayload : JSVal :=
  .obj [("teams", .arr [.obj [("data", .obj [("score", .str "88")])],
                        .obj [("data", .obj [("score", .str "76")])]]),
        ("jornada", .num 5)]

theorem sanity_generateFilenames_sample :
    generateFilenames samplePayload 3
    = { statsName := "J5_P3_88_76.json", movesName := "J5_P3_Moves.json" } := by decide

theorem sanity_generateFilenames_absent :
    generateFilenames .null 1
    = { statsName := "J0_P1_0_0.json", movesName := "J0_P1_Moves.json" } := by decide

/-! ## Archive Builder: `downloadAsZip` (scraper service, lines 66-93)

`JSON.stringify(data, null, 2)` is left abstract (`jsonStringify`): its
output never influences control flow.  `zip.generateAsync` is modelled by
an input `gen` mapping the archive's entries to `some bytes` or `none`
(the promise rejecting); its failure is caught and reported as `false`. -/

/-- Stand-in for `JSON.stringify(data, null, 2)`: the serialized entry text
(its exact shape is irrelevant to every claim; only the entry names and
count matter). -/
def jsonStringify (v : JSVal) : String :=
  toString (repr v)

/-- Model of `downloadAsZip(files, zipFilename)`: build the entry list, run the
compression step, trigger the browser save and return `true`; any failure
is caught, logged and reported as `false`. -/
def downloadAsZip (gen : List (String × String) → Option String)
    (files : List (String × JSVal)) : Bool :=
  match gen (files.map fun f => (f.1, jsonStringify f.2)) with
  | some _ => true
  | none => false

/-! ## Job Queue Orchestrator (src/types.ts and the App component)

`processJob` and `handleBulkStart` mutate React state through `setJobs` and
`setStatusMessage` and suspend at `await` points.  The embedding threads the
jobs array explicitly and records every externally observable step in an
event trace: each `setJobs` value (a snapshot of the jobs array), each
status message, each `fetchMatchData` call, each `delay(ms)` pause and the
zip attempt.  The outcome of `fetchMatchData(id, kind)` is an input
`env : FetchEnv` (error value = the thrown error's message). -/

inductive ScrapeStatus where
  | IDLE | QUEUED | FETCHING_HTML | DOWNLOADING_JSON | COMPLETED | ERROR
deriving Repr, DecidableEq

/-- The `MatchJob` record from src/types.ts. -/
structure MatchJob where
  id : String
  url : String
  status : ScrapeStatus
  statsFileDownloaded : Bool
  movesFileDownloaded : Bool
  error : Option String := none
  matchTitle : Option String := none
deriving Repr, DecidableEq

inductive FetchKind where
  | stats | moves
deriving Repr, DecidableEq

/-- Outcome of `fetchMatchData(id, kind)` for this run: either the parsed
JSON payload or the message of the error thrown (transport exhaustion or
invalid JSON alike). -/
def FetchEnv : Type := String → FetchKind → Except String JSVal

/-- Externally observable steps of a run. -/
inductive Event where
  /-- a `setJobs` call, recorded with the full new jobs array -/
  | setJobsEv (jobs : List MatchJob)
  /-- a `setStatusMessage` call -/
  | statusMsg (msg : String)
  /-- a `fetchMatchData(id, kind)` call -/
  | fetchData (id : String) (kind : FetchKind)
  /-- an `await delay(ms)` -/
  | pause (ms : Nat)
  /-- the `downloadAsZip` call and its result -/
  | zipAttempt (ok : Bool)
deriving Repr, DecidableEq

/-- The `setJobs(prev => prev.map(j => j.id === id ? f(j) : j))` pattern. -/
def updateJobs (jobs : List MatchJob) (id : String) (f : MatchJob → MatchJob) :
    List MatchJob :=
  jobs.map fun j => if j.id = id then f j else j

/-- The update `{ ...j, status: QUEUED }`. -/
def markQueued (j : MatchJob) : MatchJob := { j with status := .QUEUED }

/-- The update `{ ...j, status: DOWNLOADING_JSON }`. -/
def markDownloading (j : MatchJob) : MatchJob := { j with status := .DOWNLOADING_JSON }

/-- The update `{ ...j, statsFileDownloaded: true }`. -/
def markStatsDone (j : MatchJob) : MatchJob := { j with statsFileDownloaded := true }

/-- The update `{ ...j, movesFileDownloaded: true, status: COMPLETED }`. -/
def markCompleted (j : MatchJob) : MatchJob :=
  { j with movesFileDownloaded := true, status := .COMPLETED }

/-- The update `{ ...j, status: ERROR, error: message }`. -/
def markError (e : String) (j : MatchJob) : MatchJob :=
  { j with status := .ERROR, error := some e }

/-- Result of one `processJob` call: the returned payload pair (or `null`),
the jobs array after the call, and the trace of the call. -/
structure StepOut where
  result : Option (JSVal × JSVal)
  jobs : List MatchJob
  trace : List Event
deriving Repr

/-- Model of `processJob(job)` (App, lines 19-54): mark the job `DOWNLOADING_JSON`,
fetch stats, acknowledge (`statsFileDownloaded`), pause 500 ms, fetch moves,
mark `COMPLETED` with `movesFileDownloaded`; any fetch failure is caught and
converted to a terminal `ERROR` state carrying the error message, returning
`null`. -/
def processJob (env : FetchEnv) (jobs0 : List MatchJob) (job : MatchJob) : StepOut :=
  let jobs1 := updateJobs jobs0 job.id markDownloading
  match env job.id .stats with
  | .error e =>
    let jobsE := updateJobs jobs1 job.id (markError e)
    { result := none, jobs := jobsE,
      trace := [.setJobsEv jobs1, .fetchData job.id .stats, .setJobsEv jobsE] }
  | .ok statsData =>
    let jobs2 := updateJobs jobs1 job.id markStatsDone
    match env job.id .moves with
    | .error e =>
      let jobsE := updateJobs jobs2 job.id (markError e)
      { result := none, jobs := jobsE,
        trace := [.setJobsEv jobs1, .fetchData job.id .stats, .setJobsEv jobs2,
                  .pause 500, .fetchData job.id .moves, .setJobsEv jobsE] }
    | .ok movesData =>
      let jobs3 := updateJobs jobs2 job.id markCompleted
      { result := some (statsData, movesData), jobs := jobs3,
        trace := [.setJobsEv jobs1, .fetchData job.id .stats, .setJobsEv jobs2,
                  .pause 500, .fetchData job.id .moves, .setJobsEv jobs3] }

/-- Job creation from the discovered links (App, lines 174-184): one job per
link, id `'unknown'` when no identifier can be extracted, then those
dropped. -/
def mkInitialJobs (links : List String) : List MatchJob :=
  (links.map fun url =>
    let oid := extractMatchId url
    { id := oid.getD "unknown", url := url, status := ScrapeStatus.IDLE,
      statsFileDownloaded := false, movesFileDownloaded := false,
      error := none,
      matchTitle := some ("Match " ++ (match oid with | some s => s | none => "null")) }
  ).filter fun j => j.id ≠ "unknown"

/-- Result of a bulk run (final jobs array, accumulated files, final status
message, `isProcessing` after the `finally`, event trace). -/
structure BulkRun where
  jobs : List MatchJob
  files : List (String × JSVal)
  statusMessage : String
  isProcessing : Bool
  trace : List Event
deriving Repr

/-- The sequential queue of `handleBulkStart` (App, lines 192-214): per job,
mark `QUEUED`, report progress, run `processJob`; on success push the two
named documents (stats at the root, moves under `Moves/`); then pause 1500
ms before the next job.  `i` is the 0-based index in the original list,
`n` its length. -/
def bulkLoop (env : FetchEnv) (n : Nat) :
    List MatchJob → Nat → List MatchJob → List (String × JSVal) →
    List MatchJob × List (String × JSVal) × List Event
  | [], _, jobs, files => (jobs, files, [])
  | job :: rest, i, jobs, files =>
    let jobsQ := updateJobs jobs job.id markQueued
    let msg := "Processing " ++ toString (i + 1) ++ " of " ++ toString n ++ "..."
    let out := processJob env jobsQ job
    let files' := match out.result with
      | some (st, mv) =>
        let names := generateFilenames st (i + 1)
        files ++ [(names.statsName, st), ("Moves/" ++ names.movesName, mv)]
      | none => files
    let rec' := bulkLoop env n rest (i + 1) out.jobs files'
    (rec'.1, rec'.2.1,
      ([.setJobsEv jobsQ, .statusMsg msg] ++ out.trace ++ [.pause 1500]) ++ rec'.2.2)

/-- Model of `handleBulkStart` (App, lines 156-235): reset the jobs list, fetch the
listing page; a listing fetch failure is caught at top level with a generic
message; an empty link list halts with "no links found"; otherwise build the
job queue, process it sequentially, and, when at least one document was
retrieved, compress everything into one zip — the result of `downloadAsZip`
is not consulted for the final message.  `page` is the outcome of the
listing fetch (anchors of the parsed document), `gen` the outcome function
of the compression step. -/
def handleBulkStart (env : FetchEnv) (page : Except String (List (Option String)))
    (gen : List (String × String) → Option String) : BulkRun :=
  let t0 : List Event := [.setJobsEv [], .statusMsg "Fetching result list page..."]
  match fetchResultsPage page with
  | .error _ =>
    { jobs := [], files := [],
      statusMessage := "Error fetching the list page. Check CORS or URL.",
      isProcessing := false,
      trace := t0 ++ [.statusMsg "Error fetching the list page. Check CORS or URL."] }
  | .ok links =>
    if links.length = 0 then
      { jobs := [], files := [],
        statusMessage := "No statistics links found on that page.",
        isProcessing := false,
        trace := t0 ++ [.statusMsg "No statistics links found on that page."] }
    else
      let found := "Found " ++ toString links.length ++ " matches. queuing..."
      let initialJobs := mkInitialJobs links
      let out := bulkLoop env initialJobs.length initialJobs 0 initialJobs []
      let t1 := t0 ++ [.statusMsg found, .setJobsEv initialJobs] ++ out.2.2
      if 0 < out.2.1.length then
        let compressing :=
          "Compressing " ++ toString out.2.1.length ++ " files into one ZIP..."
        let zipRes := downloadAsZip gen out.2.1
        { jobs := out.1, files := out.2.1,
          statusMessage := "All jobs finished. ZIP downloaded.",
          isProcessing := false,
          trace := t1 ++ [.statusMsg compressing, .zipAttempt zipRes,
                          .statusMsg "All jobs finished. ZIP downloaded."] }
      else
        { jobs := out.1, files := out.2.1,
          statusMessage := "Finished, but no files were successfully retrieved.",
          isProcessing := false,
          trace := t1 ++ [.statusMsg "Finished, but no files were successfully retrieved."] }

/-- The sequence of jobs-array snapshots recorded in a trace (the values
passed to `setJobs`). -/
def snapshots (trace : List Event) : List (List MatchJob) :=
  trace.filterMap fun e =>
    match e with
    | .setJobsEv js => some js
    | _ => none

/-! ## Lemmas about the Resource Fetcher -/

/-- A provider attempt that did not succeed (threw some error). -/
def attemptFails (x : ProxyProvider × ProxyResponse) : Prop :=
  ∀ s, attemptFetch x.1 x.2 ≠ Except.ok s

theorem attemptFails_of_error {p : ProxyProvider} {r : ProxyResponse} {e : FetchError}
    (h : attemptFetch p r = Except.error e) : attemptFails (p, r) := by
  intro s hs
  rw [h] at hs
  exact Except.noConfusion hs

theorem attemptFails_elim {x : ProxyProvider × ProxyResponse} (h : attemptFails x) :
    ∃ e, attemptFetch x.1 x.2 = Except.error e := by
  cases hx : attemptFetch x.1 x.2 with
  | error e => exact ⟨e, rfl⟩
  | ok s => exact absurd hx (h s)

/-- Equation lemma: a failing attempt records its provider's name and
recurses with its error as the new last error. -/
theorem fetchTextGo_cons_error (p : ProxyProvider) (r : ProxyResponse)
    (rest : List (ProxyProvider × ProxyResponse)) (seed : Option FetchError)
    (e : FetchError) (he : attemptFetch p r = Except.error e) :
    fetchTextGo ((p, r) :: rest) seed
      = ((fetchTextGo rest (some e)).1, p.name :: (fetchTextGo rest (some e)).2) := by
  simp [fetchTextGo, he]

/-- Equation lemma: a successful attempt returns at once. -/
theorem fetchTextGo_cons_ok (p : ProxyProvider) (r : ProxyResponse)
    (rest : List (ProxyProvider × ProxyResponse)) (seed : Option FetchError)
    (t : String) (ht : attemptFetch p r = Except.ok t) :
    fetchTextGo ((p, r) :: rest) seed = (Except.ok t, [p.name]) := by
  simp [fetchTextGo, ht]

/-- Skipping a failing block of attempts only accumulates their names and
reseeds the remembered last error. -/
theorem fetchTextGo_append_fail (pre rest : List (ProxyProvider × ProxyResponse))
    (seed : Option FetchError) (h : ∀ x ∈ pre, attemptFails x) :
    ∃ seed', fetchTextGo (pre ++ rest) seed
      = ((fetchTextGo rest seed').1,
         pre.map (fun x => x.1.name) ++ (fetchTextGo rest seed').2) := by
  induction pre generalizing seed with
  | nil => exact ⟨seed, by simp⟩
  | cons x pre ih =>
    obtain ⟨p, r⟩ := x
    obtain ⟨e, he⟩ := attemptFails_elim (h (p, r) (List.mem_cons_self _ _))
    obtain ⟨seed', hs⟩ := ih (some e) fun y hy => h y (List.mem_cons_of_mem _ hy)
    refine ⟨seed', ?_⟩
    rw [List.cons_append, fetchTextGo_cons_error p r _ _ e he, hs]
    simp

/-- When every attempt fails, the loop falls through carrying the error of
the last attempt, and every provider is attempted exactly once, in order. -/
theorem fetchTextGo_all_fail (attempts : List (ProxyProvider × ProxyResponse))
    (seed : Option FetchError) (pl : ProxyProvider) (rl : ProxyResponse) (e : FetchError)
    (h : ∀ x ∈ attempts, attemptFails x)
    (hlast : attempts.getLast? = some (pl, rl))
    (he : attemptFetch pl rl = Except.error e) :
    fetchTextGo attempts seed = (Except.error (some e), attempts.map fun x => x.1.name) := by
  induction attempts generalizing seed with
  | nil => simp at hlast
  | cons x rest ih =>
    obtain ⟨p, r⟩ := x
    obtain ⟨e', he'⟩ := attemptFails_elim (h (p, r) (List.mem_cons_self _ _))
    cases rest with
    | nil =>
      simp only [List.getLast?_singleton, Option.some.injEq, Prod.mk.injEq] at hlast
      obtain ⟨hp, hr⟩ := hlast
      subst hp; subst hr
      rw [he] at he'
      injection he' with hee
      subst hee
      rw [fetchTextGo_cons_error p r [] seed e he]
      simp [fetchTextGo]
    | cons y ys =>
      have hlast' : (y :: ys).getLast? = some (pl, rl) := by
        rwa [List.getLast?_cons_cons] at hlast
      have hr := ih (some e') (fun z hz => h z (List.mem_cons_of_mem _ hz)) hlast'
      rw [fetchTextGo_cons_error p r _ seed e' he', hr]
      simp

/-- C1: `fetchTextWithFallback` tries the providers in list order and
returns the body of the first attempt that succeeds with a non-empty,
non-whitespace-only decoded body, attempting no later provider (the
attempted-name trace stops at the successful provider); an empty or
whitespace-only decoded body fails the attempt even when the HTTP response
was ok; and when every attempt fails the loop throws the error of the last
attempt after exactly one pass over the provider list. -/
theorem fetchText_fallback_spec :
    (∀ (pre : List (ProxyProvider × ProxyResponse)) p r post t,
        (∀ x ∈ pre, attemptFails x) →
        attemptFetch p r = Except.ok t →
        fetchText (pre ++ (p, r) :: post)
          = (Except.ok t, pre.map (fun x => x.1.name) ++ [p.name]))
  ∧ (∀ (p : ProxyProvider) (r : ProxyResponse) t,
        r.ok = true → decodeBody p r = Except.ok t → (jsTrim t).isEmpty = true →
        attemptFetch p r = Except.error FetchError.emptyBody)
  ∧ (∀ attempts pl rl e,
        (∀ x ∈ attempts, attemptFails x) →
        attempts.getLast? = some (pl, rl) →
        attemptFetch pl rl = Except.error e →
        fetchText attempts = (Except.error (some e), attempts.map fun x => x.1.name)) := by
  refine ⟨?_, ?_, ?_⟩
  · intro pre p r post t hpre hp
    obtain ⟨seed', hs⟩ := fetchTextGo_append_fail pre ((p, r) :: post) none hpre
    rw [fetchText, hs, fetchTextGo_cons_ok p r post seed' t hp]
  · intro p r t hok hdec htrim
    simp only [attemptFetch, hok, Bool.not_true, Bool.false_eq_true, if_false, hdec]
    simp [htrim]
  · intro attempts pl rl e hall hlast he
    exact fetchTextGo_all_fail attempts none pl rl e hall hlast he

/-- Concrete network outcomes used to instantiate the fetcher theorems:
a first provider failing with HTTP 500, a second (unwrapped) provider
succeeding with body `"X"`, a never-reached third provider, and an ok
response whose body is whitespace. -/
def respFail : ProxyResponse :=
  { ok := false, httpStatus := 500, envelope := none, bodyText := "" }

def respBodyX : ProxyResponse :=
  { ok := true, httpStatus := 200, envelope := none, bodyText := "X" }

def respBlank : ProxyResponse :=
  { ok := true, httpStatus := 200, envelope := none, bodyText := "  " }

/-- Witness for C1 at the spec's own example: providers
`[A(fails), B(succeeds, unwrapped, body="X")]` return `"X"` without a third
attempt; a whitespace-only 200 body fails; two failing providers exhaust
with the second one's error. -/
theorem fetchText_fallback_spec_witness :
    (fetchText [(⟨"allorigins-wrapped", true⟩, respFail),
                (⟨"codetabs", false⟩, respBodyX),
                (⟨"corsproxy.io", false⟩, respBodyX)]
       = (Except.ok "X", ["allorigins-wrapped", "codetabs"]))
    ∧ attemptFetch ⟨"codetabs", false⟩ respBlank = Except.error FetchError.emptyBody
    ∧ fetchText [(⟨"allorigins-wrapped", true⟩, respFail), (⟨"codetabs", false⟩, respFail)]
       = (Except.error (some (FetchError.proxyStatus "codetabs" 500)),
          ["allorigins-wrapped", "codetabs"]) := by
  refine ⟨?_, ?_, ?_⟩
  · have h := fetchText_fallback_spec.1 [(⟨"allorigins-wrapped", true⟩, respFail)]
      ⟨"codetabs", false⟩ respBodyX [(⟨"corsproxy.io", false⟩, respBodyX)] "X"
      (by
        intro x hx
        rw [List.mem_singleton] at hx
        subst hx
        exact attemptFails_of_error rfl)
      rfl
    simpa using h
  · exact fetchText_fallback_spec.2.1 ⟨"codetabs", false⟩ respBlank "  " rfl rfl rfl
  · have h := fetchText_fallback_spec.2.2
      [(⟨"allorigins-wrapped", true⟩, respFail), (⟨"codetabs", false⟩, respFail)]
      ⟨"codetabs", false⟩ respFail (FetchError.proxyStatus "codetabs" 500)
      (by
        intro x hx
        simp only [List.mem_cons, List.not_mem_nil, or_false] at hx
        rcases hx with rfl | rfl
        · exact attemptFails_of_error rfl
        · exact attemptFails_of_error rfl)
      rfl rfl
    simpa using h

/-- C6: for a wrapped provider whose ok response carries an envelope with an
embedded status code other than `200`, the attempt fails with the unwrap
error and the fallback proceeds with the remaining providers (the overall
outcome is that of the rest of the list, seeded with this failure). -/
theorem fetchText_wrapped_unwrap_spec :
    ∀ (p : ProxyProvider) (r : ProxyResponse) (code : Option Nat) (contents : String)
      (rest : List (ProxyProvider × ProxyResponse)) (seed : Option FetchError),
      p.isWrapped = true → r.ok = true →
      r.envelope = some (code, contents) → code ≠ some 200 →
      attemptFetch p r = Except.error (FetchError.wrappedBad code)
      ∧ fetchTextGo ((p, r) :: rest) seed
          = ((fetchTextGo rest (some (FetchError.wrappedBad code))).1,
             p.name :: (fetchTextGo rest (some (FetchError.wrappedBad code))).2) := by
  intro p r code contents rest seed hw hok henv hcode
  have hatt : attemptFetch p r = Except.error (FetchError.wrappedBad code) := by
    simp [attemptFetch, decodeBody, hw, hok, henv, hcode]
  exact ⟨hatt, by simp [fetchTextGo, hatt]⟩

/-- An allorigins-style envelope reporting `http_code = 404`. -/
def respWrapped404 : ProxyResponse :=
  { ok := true, httpStatus := 200, envelope := some (some 404, "irrelevant"), bodyText := "" }

/-- Witness for C6: the wrapped provider's 404 envelope fails the attempt
and the fallback moves on to the next provider, which succeeds. -/
theorem fetchText_wrapped_unwrap_spec_witness :
    attemptFetch ⟨"allorigins-wrapped", true⟩ respWrapped404
      = Except.error (FetchError.wrappedBad (some 404))
    ∧ fetchText [(⟨"allorigins-wrapped", true⟩, respWrapped404),
                 (⟨"codetabs", false⟩, respBodyX)]
        = (Except.ok "X", ["allorigins-wrapped", "codetabs"]) := by
  have h := fetchText_wrapped_unwrap_spec ⟨"allorigins-wrapped", true⟩ respWrapped404
    (some 404) "irrelevant" [(⟨"codetabs", false⟩, respBodyX)] none
    rfl rfl rfl (by decide)
  refine ⟨h.1, ?_⟩
  rw [fetchText, h.2,
    fetchTextGo_cons_ok ⟨"codetabs", false⟩ respBodyX [] _ "X" rfl]

/-! ## Lemmas about `extractMatchId` -/

theorem splitOnSlash_ne_nil (l : List Char) : splitOnSlash l ≠ [] := by
  cases l with
  | nil => simp [splitOnSlash]
  | cons c rest =>
    simp only [splitOnSlash]
    cases h : splitOnSlash rest with
    | nil => simp
    | cons seg segs =>
      by_cases hc : c = '/' <;> simp [hc]

/-- Equation lemma for `splitOnSlash` on a non-empty list, phrased on the
(always non-empty) split of the tail. -/
theorem splitOnSlash_cons (c : Char) (l seg : List Char) (segs : List (List Char))
    (h : splitOnSlash l = seg :: segs) :
    splitOnSlash (c :: l)
      = if c = '/' then [] :: seg :: segs else (c :: seg) :: segs := by
  simp [splitOnSlash, h]

/-- The split `split('/')` distributes over a separator occurrence. -/
theorem splitOnSlash_append (a b : List Char) :
    splitOnSlash (a ++ '/' :: b) = splitOnSlash a ++ splitOnSlash b := by
  induction a with
  | nil =>
    cases h : splitOnSlash b with
    | nil => exact absurd h (splitOnSlash_ne_nil b)
    | cons seg segs =>
      rw [List.nil_append, splitOnSlash_cons '/' b seg segs h]
      simp [splitOnSlash]
  | cons c a ih =>
    cases h : splitOnSlash a with
    | nil => exact absurd h (splitOnSlash_ne_nil a)
    | cons seg segs =>
      rw [List.cons_append,
        splitOnSlash_cons c (a ++ '/' :: b) seg (segs ++ splitOnSlash b)
          (by rw [ih, h]; rfl),
        splitOnSlash_cons c a seg segs h]
      by_cases hc : c = '/' <;> simp [hc]

/-- A chunk without separators splits into itself. -/
theorem splitOnSlash_no_sep (l : List Char) (h : ∀ c ∈ l, c ≠ '/') :
    splitOnSlash l = [l] := by
  induction l with
  | nil => rfl
  | cons c rest ih =>
    have hrest := ih fun d hd => h d (List.mem_cons_of_mem _ hd)
    have hc : c ≠ '/' := h c (List.mem_cons_self _ _)
    simp [splitOnSlash, hrest, hc]

/-- A run of separators splits into empty chunks only. -/
theorem splitOnSlash_all_sep (l : List Char) (h : ∀ c ∈ l, c = '/') :
    splitOnSlash l = List.replicate (l.length + 1) [] := by
  induction l with
  | nil => rfl
  | cons c rest ih =>
    have hrest := ih fun d hd => h d (List.mem_cons_of_mem _ hd)
    have hc : c = '/' := h c (List.mem_cons_self _ _)
    simp [splitOnSlash, hrest, hc, List.replicate_succ]

theorem hex24_ne_sep {s : List Char} (h : isHex24 s = true) : ∀ c ∈ s, c ≠ '/' := by
  intro c hc
  have hall := (Bool.and_eq_true .. ▸ h).2
  have := (List.all_eq_true.1 hall) c hc
  intro hslash
  subst hslash
  simp [isHexDigitChar] at this

theorem hex24_length {s : List Char} (h : isHex24 s = true) : s.length = 24 := by
  have := (Bool.and_eq_true .. ▸ h).1
  exact beq_iff_eq.mp this

theorem hex24_ne_nil {s : List Char} (h : isHex24 s = true) : 0 < s.length := by
  rw [hex24_length h]; omega

/-- The non-empty chunks of a URL of the form `pre ++ "/" ++ s ++ slashes`
(with `s` a 24-hex segment and a possibly empty run of trailing slashes)
are the non-empty chunks of `pre` followed by `s`. -/
theorem idChunks_append_hex (pre s slashes : List Char)
    (hs : isHex24 s = true) (hsl : ∀ c ∈ slashes, c = '/') :
    idChunks (pre ++ '/' :: (s ++ slashes)) = idChunks pre ++ [s] := by
  have htail : splitOnSlash (s ++ slashes) = s :: List.replicate slashes.length [] := by
    cases slashes with
    | nil =>
      simpa using splitOnSlash_no_sep s (hex24_ne_sep hs)
    | cons c rest =>
      have hc : c = '/' := hsl c (List.mem_cons_self _ _)
      subst hc
      rw [splitOnSlash_append s rest, splitOnSlash_no_sep s (hex24_ne_sep hs),
        splitOnSlash_all_sep rest fun d hd => hsl d (List.mem_cons_of_mem _ hd)]
      simp [List.replicate_succ]
  rw [idChunks, splitOnSlash_append, htail, List.filter_append]
  have hrep : List.filter (fun p => decide (0 < p.length))
      (List.replicate slashes.length ([] : List Char)) = [] := by
    rw [List.filter_eq_nil_iff]
    intro a ha
    rw [List.eq_of_mem_replicate ha]
    simp
  simp [idChunks, hrep, hex24_ne_nil hs]

/-- C7: identifier extraction returns exactly the URL's final non-empty
path segment when that segment is a 24-character hex string (stated both
for an arbitrary URL via its chunk decomposition and for a URL built as
`prefix ++ "/" ++ segment`), and returns `null` whenever the final
non-empty segment is anything else or there is no non-empty segment. -/
theorem extractMatchId_spec :
    (∀ (pre s : List Char), isHex24 s = true →
        extractMatchIdL (pre ++ '/' :: s) = some s)
  ∧ (∀ (u : String) (s : String), isHex24 s.data = true →
        extractMatchId (u ++ "/" ++ s) = some s)
  ∧ (∀ (url : List Char) (s : List Char),
        (idChunks url).getLast? = some s → isHex24 s = true →
        extractMatchIdL url = some s)
  ∧ (∀ (url : List Char) (s : List Char),
        (idChunks url).getLast? = some s → isHex24 s = false →
        extractMatchIdL url = none)
  ∧ (∀ (url : List Char), (idChunks url).getLast? = none →
        extractMatchIdL url = none) := by
  have hpos : ∀ (pre s : List Char), isHex24 s = true →
      extractMatchIdL (pre ++ '/' :: s) = some s := by
    intro pre s hs
    have h := idChunks_append_hex pre s [] hs (by simp)
    rw [List.append_nil] at h
    simp [extractMatchIdL, h, List.getLast?_concat, hs]
  refine ⟨hpos, ?_, ?_, ?_, ?_⟩
  · intro u s hs
    have hdata : (u ++ "/" ++ s).data = u.data ++ '/' :: s.data := by
      rw [String.data_append, String.data_append, List.append_assoc]
      rfl
    rw [extractMatchId, hdata, hpos u.data s.data hs]
    rfl
  · intro url s hlast hs
    simp [extractMatchIdL, hlast, hs]
  · intro url s hlast hs
    simp [extractMatchIdL, hlast, hs]
  · intro url hlast
    simp [extractMatchIdL, hlast]

/-- Witness for C7: the default single-match URL yields its trailing id;
a URL whose final segment is not 24-hex yields `null`; a URL with no
non-empty segment yields `null`. -/
theorem extractMatchId_spec_witness :
    extractMatchId ("https://www.basquetcatala.cat/estadistiques/2025" ++ "/"
        ++ "696b6acdd2a7ac0001714803") = some "696b6acdd2a7ac0001714803"
    ∧ extractMatchIdL "https://x/estadistiques/2025".data = none
    ∧ extractMatchIdL "///".data = none := by
  refine ⟨extractMatchId_spec.2.1 "https://www.basquetcatala.cat/estadistiques/2025"
      "696b6acdd2a7ac0001714803" (by decide), ?_, ?_⟩
  · exact extractMatchId_spec.2.2.2.1 "https://x/estadistiques/2025".data "2025".data
      (by decide) (by decide)
  · exact extractMatchId_spec.2.2.2.2 "///".data (by decide)

/-- C10: `extractMatchId` splits the whole URL string on `/` and tests the
last non-empty chunk: a valid 24-hex identifier followed only by trailing
slashes is returned, but an identifier followed by a query string or
fragment (a non-empty slash-free suffix starting with `?` or `#`) makes
the test fail, and the result is `null`. -/
theorem extractMatchId_split_behavior :
    (∀ (pre s slashes : List Char), isHex24 s = true → (∀ c ∈ slashes, c = '/') →
        extractMatchIdL (pre ++ '/' :: (s ++ slashes)) = some s)
  ∧ (∀ (pre s : List Char) (c : Char) (qs : List Char),
        isHex24 s = true → (c = '?' ∨ c = '#') → (∀ d ∈ c :: qs, d ≠ '/') →
        extractMatchIdL (pre ++ '/' :: (s ++ c :: qs)) = none) := by
  constructor
  · intro pre s slashes hs hsl
    simp [extractMatchIdL, idChunks_append_hex pre s slashes hs hsl,
      List.getLast?_concat, hs]
  · intro pre s c qs hs hc hq
    have hnosep : ∀ d ∈ s ++ c :: qs, d ≠ '/' := by
      intro d hd
      rcases List.mem_append.1 hd with h1 | h1
      · exact hex24_ne_sep hs d h1
      · exact hq d h1
    have hchunks : idChunks (pre ++ '/' :: (s ++ c :: qs))
        = idChunks pre ++ [s ++ c :: qs] := by
      rw [idChunks, splitOnSlash_append, splitOnSlash_no_sep _ hnosep,
        List.filter_append]
      have hlen : 0 < (s ++ c :: qs).length := by
        simp
      simp [idChunks, hlen]
    have hbad : isHex24 (s ++ c :: qs) = false := by
      have hlen : (s ++ c :: qs).length = 24 + (qs.length + 1) := by
        rw [List.length_append, hex24_length hs, List.length_cons]
      have h24 : (24 + (qs.length + 1) == 24) = false :=
        beq_eq_false_iff_ne.mpr (by omega)
      rw [isHex24, hlen, h24, Bool.false_and]
    simp [extractMatchIdL, hchunks, List.getLast?_concat, hbad]

/-- Witness for C10: trailing slashes after the identifier are tolerated;
appending `?currentSeason=true` to the very same identifier yields `null`. -/
theorem extractMatchId_split_behavior_witness :
    extractMatchIdL ("https://x".data ++ '/' :: ("696b6acdd2a7ac0001714803".data ++ "//".data))
      = some "696b6acdd2a7ac0001714803".data
    ∧ extractMatchIdL ("https://x".data ++ '/' ::
        ("696b6acdd2a7ac0001714803".data ++ '?' :: "currentSeason=true".data)) = none := by
  constructor
  · exact extractMatchId_split_behavior.1 "https://x".data "696b6acdd2a7ac0001714803".data
      "//".data (by decide) (by decide)
  · exact extractMatchId_split_behavior.2 "https://x".data "696b6acdd2a7ac0001714803".data
      '?' "currentSeason=true".data (by decide) (Or.inl rfl) (by decide)

/-! ## Lemmas about the Link Extractor -/

theorem dedupGo_sublist (xs : List String) :
    ∀ seen, (dedupGo seen xs).Sublist xs := by
  induction xs with
  | nil => intro seen; simp [dedupGo]
  | cons x xs ih =>
    intro seen
    rw [dedupGo]
    cases hx : seen.contains x with
    | true =>
      rw [if_pos rfl]
      exact (ih seen).cons x
    | false =>
      rw [if_neg Bool.false_ne_true]
      exact (ih (x :: seen)).cons₂ x

theorem mem_dedupGo (xs : List String) :
    ∀ seen y, y ∈ dedupGo seen xs ↔ y ∈ xs ∧ y ∉ seen := by
  induction xs with
  | nil => intro seen y; simp [dedupGo]
  | cons x xs ih =>
    intro seen y
    rw [dedupGo]
    cases hx : seen.contains x with
    | true =>
      have hxm : x ∈ seen := by simpa using hx
      rw [if_pos rfl, ih seen y, List.mem_cons]
      constructor
      · rintro ⟨h1, h2⟩
        exact ⟨Or.inr h1, h2⟩
      · rintro ⟨h1 | h1, h2⟩
        · subst h1; exact absurd hxm h2
        · exact ⟨h1, h2⟩
    | false =>
      have hxm : x ∉ seen := by simpa using hx
      rw [if_neg Bool.false_ne_true]
      simp only [List.mem_cons, ih (x :: seen) y]
      constructor
      · rintro (rfl | ⟨h1, h2⟩)
        · exact ⟨Or.inl rfl, hxm⟩
        · exact ⟨Or.inr h1, fun hc => h2 (Or.inr hc)⟩
      · rintro ⟨h1 | h1, h2⟩
        · exact Or.inl h1
        · by_cases hyx : y = x
          · exact Or.inl hyx
          · refine Or.inr ⟨h1, ?_⟩
            intro hc
            rcases hc with hc1 | hc1
            · exact hyx hc1
            · exact h2 hc1

theorem dedupGo_nodup (xs : List String) : ∀ seen, (dedupGo seen xs).Nodup := by
  induction xs with
  | nil => intro seen; simp [dedupGo]
  | cons x xs ih =>
    intro seen
    rw [dedupGo]
    cases hx : seen.contains x with
    | true =>
      rw [if_pos rfl]
      exact ih seen
    | false =>
      rw [if_neg Bool.false_ne_true]
      refine List.Nodup.cons ?_ (ih (x :: seen))
      intro hmem
      exact ((mem_dedupGo xs (x :: seen) x).1 hmem).2 (List.mem_cons_self _ _)

/-- The deduplicated list keeps elements in order of first occurrence: the
first-occurrence indices (relative to the input) are strictly increasing
along it. -/
theorem dedupGo_indexOf_sorted (xs : List String) :
    ∀ seen, List.Pairwise (fun a b => xs.indexOf a < xs.indexOf b) (dedupGo seen xs) := by
  induction xs with
  | nil => intro seen; simp [dedupGo]
  | cons x xs ih =>
    intro seen
    have hlift : ∀ (l : List String), List.Pairwise (fun a b => xs.indexOf a < xs.indexOf b) l →
        (∀ y ∈ l, y ≠ x) →
        List.Pairwise (fun a b => (x :: xs).indexOf a < (x :: xs).indexOf b) l := by
      intro l hpw hne
      refine hpw.imp_of_mem ?_
      intro a b ha hb hab
      rw [List.indexOf_cons_ne xs (hne a ha).symm, List.indexOf_cons_ne xs (hne b hb).symm]
      exact Nat.succ_lt_succ hab
    rw [dedupGo]
    cases hx : seen.contains x with
    | true =>
      have hxm : x ∈ seen := by simpa using hx
      rw [if_pos rfl]
      refine hlift _ (ih seen) ?_
      intro y hy hyx
      subst hyx
      exact ((mem_dedupGo xs seen y).1 hy).2 hxm
    | false =>
      rw [if_neg Bool.false_ne_true]
      refine List.Pairwise.cons ?_ (hlift _ (ih (x :: seen)) ?_)
      · intro b hb
        have hbx : x ≠ b := by
          intro hbx
          subst hbx
          exact ((mem_dedupGo xs (x :: seen) x).1 hb).2 (List.mem_cons_self _ _)
        rw [List.indexOf_cons_self, List.indexOf_cons_ne xs hbx]
        exact Nat.succ_pos _
      · intro y hy hyx
        apply ((mem_dedupGo xs (x :: seen) y).1 hy).2
        rw [hyx]
        exact List.mem_cons_self _ _

/-- C8: link extraction returns each distinct normalized candidate URL
exactly once (no duplicates, same membership as the normalized candidate
list), in document order with the position of the first occurrence deciding
the order; every matching href contributes its normalized form; and a page
without matching links yields the empty list through `fetchResultsPage`
(an `ok` result, not an error). -/
theorem extractMatchLinks_spec (anchors : List (Option String)) :
    (extractMatchLinks anchors).Nodup
  ∧ (∀ y, y ∈ extractMatchLinks anchors ↔ y ∈ candidateLinks anchors)
  ∧ (extractMatchLinks anchors).Sublist (candidateLinks anchors)
  ∧ List.Pairwise
      (fun a b => (candidateLinks anchors).indexOf a < (candidateLinks anchors).indexOf b)
      (extractMatchLinks anchors)
  ∧ (∀ href, some href ∈ anchors → hasStatsFragment href = true →
        normalizeHref href ∈ extractMatchLinks anchors)
  ∧ ((∀ href, some href ∈ anchors → hasStatsFragment href = false) →
        fetchResultsPage (Except.ok anchors) = Except.ok []) := by
  refine ⟨dedupGo_nodup _ _, ?_, dedupGo_sublist _ _, dedupGo_indexOf_sorted _ _, ?_, ?_⟩
  · intro y
    rw [extractMatchLinks, insertionDedup, mem_dedupGo]
    simp
  · intro href hmem hfrag
    rw [extractMatchLinks, insertionDedup, mem_dedupGo]
    refine ⟨?_, by simp⟩
    rw [candidateLinks]
    refine List.mem_map_of_mem _ ?_
    rw [List.mem_filter]
    exact ⟨List.mem_filterMap.2 ⟨some href, hmem, rfl⟩, hfrag⟩
  · intro hnone
    have hcand : candidateLinks anchors = [] := by
      rw [candidateLinks, List.map_eq_nil_iff]
      rw [List.filter_eq_nil_iff]
      intro a ha
      rcases List.mem_filterMap.1 ha with ⟨oa, hoa, hid⟩
      cases oa with
      | none => simp at hid
      | some s =>
        obtain rfl : s = a := by simpa using hid
        simp [hnone s hoa]
    rw [fetchResultsPage, extractMatchLinks, hcand]
    rfl

/-- Witness for C8 on a page with duplicate, relative and non-matching
hrefs, plus the empty-page case. -/
theorem extractMatchLinks_spec_witness :
    (extractMatchLinks [some "/estadistiques/2025/a", none, some "/foo",
        some "https://www.basquetcatala.cat/estadistiques/2025/a",
        some "/estadistiques/2025/a", some "/estadistiques/2025/b"]).Nodup
    ∧ fetchResultsPage (Except.ok [some "/foo", none]) = Except.ok [] := by
  refine ⟨(extractMatchLinks_spec _).1, ?_⟩
  refine (extractMatchLinks_spec [some "/foo", none]).2.2.2.2.2 ?_
  intro href hmem
  simp only [List.mem_cons, List.not_mem_nil, or_false, Option.some.injEq,
    reduceCtorEq] at hmem
  subst hmem
  decide

/-! ## Lemmas about the Filename Deriver -/

/-- C3: `generateFilenames` derives the round from the top-level `jornada`
field when that field is present and non-falsy, else from the one nested
under the `match` grouping, else uses the placeholder `"0"` (presence is the
source's JavaScript truthiness test); the derived round flows into both
produced names; and on the spec's two test vectors — the
`{teams:..., jornada:5}` payload at index 3, and an absent payload at
index 1 — it returns exactly `J5_P3_88_76.json`/`J5_P3_Moves.json` and
`J0_P1_0_0.json`/`J0_P1_Moves.json`. -/
theorem generateFilenames_round_spec :
    (∀ stats : JSVal, truthy (getField stats "jornada") = true →
        deriveRound stats = jsString (getField stats "jornada"))
  ∧ (∀ stats : JSVal, truthy (getField stats "jornada") = false →
        truthy (getField stats "match") = true →
        truthy (getField (getField stats "match") "jornada") = true →
        deriveRound stats = jsString (getField (getField stats "match") "jornada"))
  ∧ (∀ stats : JSVal, truthy (getField stats "jornada") = false →
        (truthy (getField stats "match") = false ∨
          truthy (getField (getField stats "match") "jornada") = false) →
        deriveRound stats = "0")
  ∧ (∀ (stats : JSVal) (index : Nat), truthy stats = true →
        (generateFilenames stats index).movesName
          = "J" ++ jsTrim (deriveRound stats) ++ "_P" ++ toString index ++ "_Moves.json")
  ∧ generateFilenames samplePayload 3
      = { statsName := "J5_P3_88_76.json", movesName := "J5_P3_Moves.json" }
  ∧ generateFilenames JSVal.null 1
      = { statsName := "J0_P1_0_0.json", movesName := "J0_P1_Moves.json" }
  ∧ generateFilenames JSVal.undefined 1
      = { statsName := "J0_P1_0_0.json", movesName := "J0_P1_Moves.json" } := by
  refine ⟨?_, ?_, ?_, ?_, by decide, by decide, by decide⟩
  · intro stats h
    rw [deriveRound, if_pos h]
  · intro stats h1 h2 h3
    rw [deriveRound, if_neg (by simp [h1]), if_pos (by simp [h2, h3])]
  · intro stats h1 h2
    rcases h2 with h2 | h2
    · rw [deriveRound, if_neg (by simp [h1]), if_neg (by simp [h2])]
    · rw [deriveRound, if_neg (by simp [h1]), if_neg (by simp [h2])]
  · intro stats index h
    simp [generateFilenames, h]

/-- Witness for C3: a payload with a falsy top-level round but a nested
`match.jornada` uses the nested value, instantiating the general priority
conjuncts at a concrete payload, alongside the two fixed test vectors. -/
theorem generateFilenames_round_spec_witness :
    deriveRound (JSVal.obj [("jornada", JSVal.num 7)]) = "7"
    ∧ deriveRound (JSVal.obj [("match", JSVal.obj [("jornada", JSVal.num 9)])]) = "9"
    ∧ deriveRound (JSVal.obj []) = "0"
    ∧ (generateFilenames (JSVal.obj [("match", JSVal.obj [("jornada", JSVal.num 9)])]) 2).movesName
        = "J9_P2_Moves.json" := by
  refine ⟨?_, ?_, ?_, ?_⟩
  · rw [generateFilenames_round_spec.1 (JSVal.obj [("jornada", JSVal.num 7)]) (by decide)]
    decide
  · rw [generateFilenames_round_spec.2.1 (JSVal.obj [("match", JSVal.obj [("jornada", JSVal.num 9)])])
      (by decide) (by decide) (by decide)]
    decide
  · exact generateFilenames_round_spec.2.2.1 (JSVal.obj []) (by decide) (Or.inl (by decide))
  · rw [generateFilenames_round_spec.2.2.2.1 (JSVal.obj [("match", JSVal.obj [("jornada", JSVal.num 9)])])
      2 (by decide)]
    decide

/-! ## Lemmas about the Archive Builder and the bulk run handler -/

/-- Concrete bulk-run inputs: a listing page with three match links whose
trailing identifiers are 24-hex strings, and a fetch environment in which
every fetch of the second identifier fails with message `"boom"` while all
other fetches yield an empty JSON object. -/
def bulkIdA : String := "aaaaaaaaaaaaaaaaaaaaaaaa"

def bulkIdB : String := "bbbbbbbbbbbbbbbbbbbbbbbb"

def bulkIdC : String := "cccccccccccccccccccccccc"

def bulkAnchors : List (Option String) :=
  [some ("/estadistiques/2025/" ++ bulkIdA),
   some ("/estadistiques/2025/" ++ bulkIdB),
   some ("/estadistiques/2025/" ++ bulkIdC)]

def bulkEnv : FetchEnv := fun id _ =>
  if id = bulkIdB then Except.error "boom" else Except.ok (JSVal.obj [])

/-- A compression step that succeeds on any entry list. -/
def genOk : List (String × String) → Option String := fun _ => some "zipbytes"

/-- A compression step that fails on any entry list. -/
def genFail : List (String × String) → Option String := fun _ => none

/-- Counterexample to C2: when the compression step fails, `downloadAsZip`
does report `false`, but the failure does not propagate to the top-level
bulk run handler — its final status message is the success message
`"All jobs finished. ZIP downloaded."`, identical to the message of the very
same run with a succeeding compression step. -/
theorem downloadAsZip_failure_reporting_cex :
    downloadAsZip genFail [("a.json", JSVal.obj [])] = false
    ∧ (handleBulkStart bulkEnv (Except.ok bulkAnchors) genFail).statusMessage
        = "All jobs finished. ZIP downloaded."
    ∧ (handleBulkStart bulkEnv (Except.ok bulkAnchors) genFail).statusMessage
        = (handleBulkStart bulkEnv (Except.ok bulkAnchors) genOk).statusMessage := by
  refine ⟨rfl, by decide, by decide⟩

/-- C2 (amended): a compression failure is caught inside `downloadAsZip`
and reported as the return value `false` (not silently re-thrown), and the
run is left marked not-in-progress; but the bulk run handler ignores that
return value — its final status message is the same whether the compression
step fails or succeeds. -/
theorem downloadAsZip_failure_swallowed
    (gen gen' : List (String × String) → Option String)
    (env : FetchEnv) (page : Except String (List (Option String)))
    (hg : ∀ entries, gen entries = none) :
    (∀ files, downloadAsZip gen files = false)
    ∧ (handleBulkStart env page gen).statusMessage
        = (handleBulkStart env page gen').statusMessage
    ∧ (handleBulkStart env page gen).isProcessing = false := by
  refine ⟨fun files => by simp [downloadAsZip, hg], ?_, ?_⟩
  · rw [handleBulkStart, handleBulkStart]
    cases fetchResultsPage page with
    | error e => rfl
    | ok links =>
      by_cases hl : links.length = 0
      · simp [hl]
      · simp only [hl, if_false]
        by_cases hf : 0 < (bulkLoop env (mkInitialJobs links).length (mkInitialJobs links)
            0 (mkInitialJobs links) []).2.1.length
        · simp [hf]
        · simp [hf]
  · rw [handleBulkStart]
    cases fetchResultsPage page with
    | error e => rfl
    | ok links =>
      by_cases hl : links.length = 0
      · simp [hl]
      · simp only [hl, if_false]
        by_cases hf : 0 < (bulkLoop env (mkInitialJobs links).length (mkInitialJobs links)
            0 (mkInitialJobs links) []).2.1.length
        · simp [hf]
        · simp [hf]

/-- Witness for the amended C2 at the concrete three-job run. -/
theorem downloadAsZip_failure_swallowed_witness :
    (∀ files, downloadAsZip genFail files = false)
    ∧ (handleBulkStart bulkEnv (Except.ok bulkAnchors) genFail).statusMessage
        = (handleBulkStart bulkEnv (Except.ok bulkAnchors) genOk).statusMessage
    ∧ (handleBulkStart bulkEnv (Except.ok bulkAnchors) genFail).isProcessing = false :=
  downloadAsZip_failure_swallowed genFail genOk bulkEnv (Except.ok bulkAnchors)
    fun _ => rfl

/-! ## Lemmas about the Job Queue Orchestrator -/

/-- Did this `Except` succeed? -/
def isOkB {ε α : Type} : Except ε α → Bool
  | .ok _ => true
  | .error _ => false

/-- Both of a job's fetches succeed in this environment. -/
def jobSucceeds (env : FetchEnv) (j : MatchJob) : Bool :=
  isOkB (env j.id FetchKind.stats) && isOkB (env j.id FetchKind.moves)

/-- Number of jobs in the terminal `COMPLETED` state. -/
def countCompleted (jobs : List MatchJob) : Nat :=
  jobs.countP fun j => decide (j.status = ScrapeStatus.COMPLETED)

theorem updateJobs_map_id (js : List MatchJob) (tid : String) (f : MatchJob → MatchJob)
    (hf : ∀ j, (f j).id = j.id) :
    (updateJobs js tid f).map (fun j => j.id) = js.map (fun j => j.id) := by
  rw [updateJobs, List.map_map]
  refine List.map_congr_left ?_
  intro j _
  by_cases h : j.id = tid <;> simp [h, hf]

theorem updateJobs_length (js : List MatchJob) (tid : String) (f : MatchJob → MatchJob) :
    (updateJobs js tid f).length = js.length := by
  simp [updateJobs]

theorem mem_updateJobs_of_ne (js : List MatchJob) (tid : String) (f : MatchJob → MatchJob)
    (hf : ∀ j, (f j).id = j.id) {j' : MatchJob}
    (h : j' ∈ updateJobs js tid f) (hne : j'.id ≠ tid) : j' ∈ js := by
  rcases List.mem_map.1 h with ⟨j, hj, hj'⟩
  by_cases hjt : j.id = tid
  · rw [if_pos hjt] at hj'
    subst hj'
    exact absurd (hf j ▸ hjt) hne
  · rw [if_neg hjt] at hj'
    subst hj'
    exact hj

theorem mem_updateJobs_of_eq (js : List MatchJob) (tid : String) (f : MatchJob → MatchJob)
    {j' : MatchJob}
    (h : j' ∈ updateJobs js tid f) (heq : j'.id = tid) :
    ∃ j ∈ js, j.id = tid ∧ j' = f j := by
  rcases List.mem_map.1 h with ⟨j, hj, hj'⟩
  by_cases hjt : j.id = tid
  · rw [if_pos hjt] at hj'
    exact ⟨j, hj, hjt, hj'.symm⟩
  · rw [if_neg hjt] at hj'
    subst hj'
    exact absurd heq hjt

theorem countP_updateJobs_pres (p : MatchJob → Bool) (f : MatchJob → MatchJob)
    (tid : String) (js : List MatchJob)
    (h : ∀ j ∈ js, j.id = tid → p (f j) = p j) :
    (updateJobs js tid f).countP p = js.countP p := by
  induction js with
  | nil => rfl
  | cons j js ih =>
    have hstep : updateJobs (j :: js) tid f
        = (if j.id = tid then f j else j) :: updateJobs js tid f := rfl
    rw [hstep, List.countP_cons, List.countP_cons,
      ih fun a ha hat => h a (List.mem_cons_of_mem _ ha) hat]
    by_cases hj : j.id = tid
    · rw [if_pos hj, h j (List.mem_cons_self _ _) hj]
    · rw [if_neg hj]

theorem countP_updateJobs_add (p : MatchJob → Bool) (f : MatchJob → MatchJob)
    (tid : String) (js : List MatchJob)
    (h : ∀ j ∈ js, j.id = tid → p j = false ∧ p (f j) = true) :
    (updateJobs js tid f).countP p
      = js.countP p + js.countP (fun j => decide (j.id = tid)) := by
  induction js with
  | nil => rfl
  | cons j js ih =>
    have hstep : updateJobs (j :: js) tid f
        = (if j.id = tid then f j else j) :: updateJobs js tid f := rfl
    rw [hstep, List.countP_cons, List.countP_cons, List.countP_cons,
      ih fun a ha hat => h a (List.mem_cons_of_mem _ ha) hat]
    by_cases hj : j.id = tid
    · rw [if_pos hj, (h j (List.mem_cons_self _ _) hj).1, (h j (List.mem_cons_self _ _) hj).2]
      simp [hj]
      omega
    · rw [if_neg hj]
      simp only [hj, decide_False]
      rw [if_neg Bool.false_ne_true]
      omega

theorem countP_id_eq_one (js : List MatchJob) (tid : String)
    (hnd : (js.map (fun j => j.id)).Nodup) (hmem : tid ∈ js.map (fun j => j.id)) :
    js.countP (fun j => decide (j.id = tid)) = 1 := by
  induction js with
  | nil => simp at hmem
  | cons j js ih =>
    rw [List.map_cons, List.nodup_cons] at hnd
    rw [List.map_cons, List.mem_cons] at hmem
    rw [List.countP_cons]
    by_cases hj : j.id = tid
    · have h0 : js.countP (fun x => decide (x.id = tid)) = 0 := by
        rw [List.countP_eq_zero]
        intro a ha
        simp only [decide_eq_true_eq]
        intro hcontra
        exact hnd.1 (hj ▸ hcontra ▸ List.mem_map_of_mem (fun x => x.id) ha)
      rw [h0]
      simp [hj]
    · rcases hmem with h1 | h1
      · exact absurd h1.symm hj
      · rw [ih hnd.2 h1]
        simp [hj]


theorem markQueued_id (j : MatchJob) : (markQueued j).id = j.id := rfl

theorem markDownloading_id (j : MatchJob) : (markDownloading j).id = j.id := rfl

theorem markStatsDone_id (j : MatchJob) : (markStatsDone j).id = j.id := rfl

theorem markCompleted_id (j : MatchJob) : (markCompleted j).id = j.id := rfl

theorem markError_id (e : String) (j : MatchJob) : (markError e j).id = j.id := rfl

/-- Everything C4 needs about one `processJob` call: the returned value is
`some` exactly when both fetches succeed; job ids are preserved; the
`COMPLETED` count grows by the number of entries carrying the processed id
exactly on success; entries with other ids are untouched; and the entries
carrying the processed id end `COMPLETED` on success and `ERROR` with a
recorded error message on failure. -/
theorem processJob_spec (env : FetchEnv) (jobs0 : List MatchJob) (job : MatchJob)
    (hq : ∀ j' ∈ jobs0, j'.id = job.id → j'.status ≠ ScrapeStatus.COMPLETED) :
    (processJob env jobs0 job).result.isSome = jobSucceeds env job
    ∧ (processJob env jobs0 job).jobs.map (fun j => j.id) = jobs0.map (fun j => j.id)
    ∧ countCompleted (processJob env jobs0 job).jobs
        = countCompleted jobs0
          + (if jobSucceeds env job = true
             then jobs0.countP (fun j => decide (j.id = job.id)) else 0)
    ∧ (∀ j' ∈ (processJob env jobs0 job).jobs, j'.id ≠ job.id → j' ∈ jobs0)
    ∧ (∀ j' ∈ (processJob env jobs0 job).jobs, j'.id = job.id →
         (jobSucceeds env job = true → j'.status = ScrapeStatus.COMPLETED)
       ∧ (jobSucceeds env job = false →
            j'.status = ScrapeStatus.ERROR ∧ j'.error.isSome = true)) := by
  have h1 : countCompleted (updateJobs jobs0 job.id markDownloading) = countCompleted jobs0 :=
    countP_updateJobs_pres _ _ _ _ fun j hj hid => by
      simp [markDownloading, hq j hj hid]
  cases hs : env job.id FetchKind.stats with
  | error e =>
    have hsucc : jobSucceeds env job = false := by simp [jobSucceeds, isOkB, hs]
    simp only [processJob, hs]
    refine ⟨by simp [hsucc], ?_, ?_, ?_, ?_⟩
    · rw [updateJobs_map_id _ _ _ (markError_id e), updateJobs_map_id _ _ _ markDownloading_id]
    · have h2 : countCompleted (updateJobs (updateJobs jobs0 job.id markDownloading)
          job.id (markError e))
          = countCompleted (updateJobs jobs0 job.id markDownloading) := by
        refine countP_updateJobs_pres _ _ _ _ fun j' hj' hid => ?_
        obtain ⟨j, _, _, rfl⟩ := mem_updateJobs_of_eq _ _ _ hj' hid
        simp [markError, markDownloading]
      rw [h2, h1, hsucc]
      simp
    · intro j' hj' hne
      exact mem_updateJobs_of_ne _ _ _ markDownloading_id
        (mem_updateJobs_of_ne _ _ _ (markError_id e) hj' hne) hne
    · intro j' hj' hid
      obtain ⟨j, _, _, rfl⟩ := mem_updateJobs_of_eq _ _ _ hj' hid
      refine ⟨fun hcontra => ?_, fun _ => by simp [markError]⟩
      rw [hsucc] at hcontra
      exact Bool.noConfusion hcontra
  | ok st =>
    have h2 : countCompleted (updateJobs (updateJobs jobs0 job.id markDownloading)
        job.id markStatsDone)
        = countCompleted (updateJobs jobs0 job.id markDownloading) :=
      countP_updateJobs_pres _ _ _ _ fun j _ _ => by simp [markStatsDone]
    cases hm : env job.id FetchKind.moves with
    | error e =>
      have hsucc : jobSucceeds env job = false := by simp [jobSucceeds, isOkB, hs, hm]
      simp only [processJob, hs, hm]
      refine ⟨by simp [hsucc], ?_, ?_, ?_, ?_⟩
      · rw [updateJobs_map_id _ _ _ (markError_id e), updateJobs_map_id _ _ _ markStatsDone_id,
          updateJobs_map_id _ _ _ markDownloading_id]
      · have h3 : countCompleted (updateJobs (updateJobs (updateJobs jobs0 job.id
              markDownloading) job.id markStatsDone) job.id (markError e))
            = countCompleted (updateJobs (updateJobs jobs0 job.id markDownloading)
              job.id markStatsDone) := by
          refine countP_updateJobs_pres _ _ _ _ fun j' hj' hid => ?_
          obtain ⟨j1, hj1, hid1, rfl⟩ := mem_updateJobs_of_eq _ _ _ hj' hid
          obtain ⟨j0, _, _, rfl⟩ := mem_updateJobs_of_eq _ _ _ hj1 hid1
          simp [markError, markStatsDone, markDownloading]
        rw [h3, h2, h1, hsucc]
        simp
      · intro j' hj' hne
        exact mem_updateJobs_of_ne _ _ _ markDownloading_id
          (mem_updateJobs_of_ne _ _ _ markStatsDone_id
            (mem_updateJobs_of_ne _ _ _ (markError_id e) hj' hne) hne) hne
      · intro j' hj' hid
        obtain ⟨j, _, _, rfl⟩ := mem_updateJobs_of_eq _ _ _ hj' hid
        refine ⟨fun hcontra => ?_, fun _ => by simp [markError]⟩
        rw [hsucc] at hcontra
        exact Bool.noConfusion hcontra
    | ok mv =>
      have hsucc : jobSucceeds env job = true := by simp [jobSucceeds, isOkB, hs, hm]
      simp only [processJob, hs, hm]
      refine ⟨by simp [hsucc], ?_, ?_, ?_, ?_⟩
      · rw [updateJobs_map_id _ _ _ markCompleted_id, updateJobs_map_id _ _ _ markStatsDone_id,
          updateJobs_map_id _ _ _ markDownloading_id]
      · have h3 : countCompleted (updateJobs (updateJobs (updateJobs jobs0 job.id
              markDownloading) job.id markStatsDone) job.id markCompleted)
            = countCompleted (updateJobs (updateJobs jobs0 job.id markDownloading)
              job.id markStatsDone)
              + (updateJobs (updateJobs jobs0 job.id markDownloading)
                  job.id markStatsDone).countP (fun j => decide (j.id = job.id)) := by
          refine countP_updateJobs_add _ _ _ _ fun j' hj' hid => ?_
          obtain ⟨j1, hj1, hid1, rfl⟩ := mem_updateJobs_of_eq _ _ _ hj' hid
          obtain ⟨j0, _, _, rfl⟩ := mem_updateJobs_of_eq _ _ _ hj1 hid1
          constructor
          · simp [markStatsDone, markDownloading]
          · simp [markCompleted]
        have h4 : (updateJobs (updateJobs jobs0 job.id markDownloading)
              job.id markStatsDone).countP (fun j => decide (j.id = job.id))
            = jobs0.countP (fun j => decide (j.id = job.id)) := by
          rw [countP_updateJobs_pres _ _ _ _ fun j _ _ => by simp [markStatsDone],
            countP_updateJobs_pres _ _ _ _ fun j _ _ => by simp [markDownloading]]
        rw [h3, h2, h1, h4, hsucc]
        simp
      · intro j' hj' hne
        exact mem_updateJobs_of_ne _ _ _ markDownloading_id
          (mem_updateJobs_of_ne _ _ _ markStatsDone_id
            (mem_updateJobs_of_ne _ _ _ markCompleted_id hj' hne) hne) hne
      · intro j' hj' hid
        obtain ⟨j, _, _, rfl⟩ := mem_updateJobs_of_eq _ _ _ hj' hid
        refine ⟨fun _ => by simp [markCompleted], fun hcontra => ?_⟩
        rw [hsucc] at hcontra
        exact Bool.noConfusion hcontra

/-- Loop invariant of the bulk queue: with pairwise-distinct job ids, the
file accumulator grows by exactly two entries per successful job, the
`COMPLETED` count grows by exactly the number of successful jobs, ids are
preserved, entries whose id is not scheduled are untouched, and every
scheduled job's entry ends `COMPLETED` (on success) or `ERROR` with a
recorded message (on failure). -/
theorem bulkLoop_spec (env : FetchEnv) (n : Nat) (js : List MatchJob) :
    ∀ (i : Nat) (jobs0 : List MatchJob) (files0 : List (String × JSVal)),
    (jobs0.map (fun j => j.id)).Nodup →
    (js.map (fun j => j.id)).Nodup →
    (∀ j ∈ js, j.id ∈ jobs0.map (fun j => j.id)) →
    (∀ j ∈ js, ∀ j' ∈ jobs0, j'.id = j.id → j'.status ≠ ScrapeStatus.COMPLETED) →
    (bulkLoop env n js i jobs0 files0).2.1.length
        = files0.length + 2 * js.countP (jobSucceeds env)
    ∧ countCompleted (bulkLoop env n js i jobs0 files0).1
        = countCompleted jobs0 + js.countP (jobSucceeds env)
    ∧ (bulkLoop env n js i jobs0 files0).1.map (fun j => j.id) = jobs0.map (fun j => j.id)
    ∧ (∀ j' ∈ (bulkLoop env n js i jobs0 files0).1,
          j'.id ∉ js.map (fun j => j.id) → j' ∈ jobs0)
    ∧ (∀ j ∈ js, ∀ j' ∈ (bulkLoop env n js i jobs0 files0).1, j'.id = j.id →
         (jobSucceeds env j = true → j'.status = ScrapeStatus.COMPLETED)
       ∧ (jobSucceeds env j = false →
            j'.status = ScrapeStatus.ERROR ∧ j'.error.isSome = true)) := by
  induction js with
  | nil =>
    intro i jobs0 files0 _ _ _ _
    refine ⟨by simp [bulkLoop], by simp [bulkLoop], by simp [bulkLoop], ?_, by simp⟩
    intro j' hj' _
    simpa [bulkLoop] using hj'
  | cons job rest ih =>
    intro i jobs0 files0 hids hjsnd hmem hpend
    have hmemhd : job.id ∈ jobs0.map (fun j => j.id) := hmem job (List.mem_cons_self _ _)
    have hndrest : (rest.map (fun j => j.id)).Nodup := by
      rw [List.map_cons, List.nodup_cons] at hjsnd
      exact hjsnd.2
    have hhdnotin : job.id ∉ rest.map (fun j => j.id) := by
      rw [List.map_cons, List.nodup_cons] at hjsnd
      exact hjsnd.1
    have hqQ : ∀ j' ∈ updateJobs jobs0 job.id markQueued, j'.id = job.id →
        j'.status ≠ ScrapeStatus.COMPLETED := by
      intro j' hj' hid
      obtain ⟨j, _, _, rfl⟩ := mem_updateJobs_of_eq _ _ _ hj' hid
      simp [markQueued]
    have hidsQ : (updateJobs jobs0 job.id markQueued).map (fun j => j.id)
        = jobs0.map (fun j => j.id) := updateJobs_map_id _ _ _ markQueued_id
    have hcntQ : countCompleted (updateJobs jobs0 job.id markQueued) = countCompleted jobs0 :=
      countP_updateJobs_pres _ _ _ _ fun j hj hid => by
        simp [markQueued, hpend job (List.mem_cons_self _ _) j hj hid]
    have hidmQ : (updateJobs jobs0 job.id markQueued).countP (fun j => decide (j.id = job.id))
        = jobs0.countP (fun j => decide (j.id = job.id)) :=
      countP_updateJobs_pres _ _ _ _ fun j _ _ => by simp [markQueued]
    obtain ⟨hres, hidsP, hcntP, hpresP, htermP⟩ :=
      processJob_spec env (updateJobs jobs0 job.id markQueued) job hqQ
    have hone : jobs0.countP (fun j => decide (j.id = job.id)) = 1 :=
      countP_id_eq_one jobs0 job.id hids hmemhd
    have hids' : (processJob env (updateJobs jobs0 job.id markQueued) job).jobs.map
        (fun j => j.id) = jobs0.map (fun j => j.id) := hidsP.trans hidsQ
    have hmem' : ∀ j ∈ rest, j.id ∈
        (processJob env (updateJobs jobs0 job.id markQueued) job).jobs.map (fun j => j.id) := by
      rw [hids']
      intro j hj
      exact hmem j (List.mem_cons_of_mem _ hj)
    have hpend' : ∀ j ∈ rest, ∀ j' ∈
        (processJob env (updateJobs jobs0 job.id markQueued) job).jobs,
        j'.id = j.id → j'.status ≠ ScrapeStatus.COMPLETED := by
      intro j hj j' hj' hid
      have hjne : j.id ≠ job.id := by
        intro hcontra
        exact hhdnotin (hcontra ▸ List.mem_map_of_mem (fun x => x.id) hj)
      have hj'Q : j' ∈ updateJobs jobs0 job.id markQueued :=
        hpresP j' hj' (by rw [hid]; exact hjne)
      have hj'0 : j' ∈ jobs0 :=
        mem_updateJobs_of_ne _ _ _ markQueued_id hj'Q (by rw [hid]; exact hjne)
      exact hpend j (List.mem_cons_of_mem _ hj) j' hj'0 hid
    have hids0' : ((processJob env (updateJobs jobs0 job.id markQueued) job).jobs.map
        (fun j => j.id)).Nodup := by
      rw [hids']
      exact hids
    cases hr : (processJob env (updateJobs jobs0 job.id markQueued) job).result with
    | some pair =>
      obtain ⟨st, mv⟩ := pair
      have hsucc : jobSucceeds env job = true := by rw [← hres, hr]; rfl
      obtain ⟨ihf, ihc, ihi, ihp, iht⟩ := ih (i + 1)
        (processJob env (updateJobs jobs0 job.id markQueued) job).jobs
        (files0 ++ [((generateFilenames st (i + 1)).statsName, st),
                    ("Moves/" ++ (generateFilenames st (i + 1)).movesName, mv)])
        hids0' hndrest hmem' hpend'
      have hunfold : bulkLoop env n (job :: rest) i jobs0 files0
          = ((bulkLoop env n rest (i + 1)
                (processJob env (updateJobs jobs0 job.id markQueued) job).jobs
                (files0 ++ [((generateFilenames st (i + 1)).statsName, st),
                            ("Moves/" ++ (generateFilenames st (i + 1)).movesName, mv)])).1,
             (bulkLoop env n rest (i + 1)
                (processJob env (updateJobs jobs0 job.id markQueued) job).jobs
                (files0 ++ [((generateFilenames st (i + 1)).statsName, st),
                            ("Moves/" ++ (generateFilenames st (i + 1)).movesName, mv)])).2.1,
             ([Event.setJobsEv (updateJobs jobs0 job.id markQueued),
               Event.statusMsg ("Processing " ++ toString (i + 1) ++ " of "
                 ++ toString n ++ "...")]
               ++ (processJob env (updateJobs jobs0 job.id markQueued) job).trace
               ++ [Event.pause 1500])
               ++ (bulkLoop env n rest (i + 1)
                    (processJob env (updateJobs jobs0 job.id markQueued) job).jobs
                    (files0 ++ [((generateFilenames st (i + 1)).statsName, st),
                                ("Moves/" ++ (generateFilenames st (i + 1)).movesName, mv)])).2.2) := by
        rw [bulkLoop, hr]
      rw [hunfold]
      refine ⟨?_, ?_, ?_, ?_, ?_⟩
      · rw [ihf, List.countP_cons]
        simp [hsucc]
        omega
      · rw [ihc, hcntP, hcntQ, hidmQ, hone, List.countP_cons]
        simp [hsucc]
        omega
      · exact ihi.trans hids'
      · intro j' hj' hnotin
        rw [List.map_cons, List.mem_cons] at hnotin
        push_neg at hnotin
        have hj'P := ihp j' hj' hnotin.2
        have hj'Q : j' ∈ updateJobs jobs0 job.id markQueued :=
          hpresP j' hj'P hnotin.1
        exact mem_updateJobs_of_ne _ _ _ markQueued_id hj'Q hnotin.1
      · intro j hj j' hj' hid
        rcases List.mem_cons.1 hj with rfl | hjr
        · have hj'P := ihp j' hj' (by rw [hid]; exact hhdnotin)
          exact htermP j' hj'P hid
        · exact iht j hjr j' hj' hid
    | none =>
      have hsucc : jobSucceeds env job = false := by rw [← hres, hr]; rfl
      obtain ⟨ihf, ihc, ihi, ihp, iht⟩ := ih (i + 1)
        (processJob env (updateJobs jobs0 job.id markQueued) job).jobs files0
        hids0' hndrest hmem' hpend'
      have hunfold : bulkLoop env n (job :: rest) i jobs0 files0
          = ((bulkLoop env n rest (i + 1)
                (processJob env (updateJobs jobs0 job.id markQueued) job).jobs files0).1,
             (bulkLoop env n rest (i + 1)
                (processJob env (updateJobs jobs0 job.id markQueued) job).jobs files0).2.1,
             ([Event.setJobsEv (updateJobs jobs0 job.id markQueued),
               Event.statusMsg ("Processing " ++ toString (i + 1) ++ " of "
                 ++ toString n ++ "...")]
               ++ (processJob env (updateJobs jobs0 job.id markQueued) job).trace
               ++ [Event.pause 1500])
               ++ (bulkLoop env n rest (i + 1)
                    (processJob env (updateJobs jobs0 job.id markQueued) job).jobs
                    files0).2.2) := by
        rw [bulkLoop, hr]
      rw [hunfold]
      refine ⟨?_, ?_, ?_, ?_, ?_⟩
      · rw [ihf, List.countP_cons]
        simp [hsucc]
      · rw [ihc, hcntP, hcntQ, List.countP_cons]
        simp [hsucc]
      · exact ihi.trans hids'
      · intro j' hj' hnotin
        rw [List.map_cons, List.mem_cons] at hnotin
        push_neg at hnotin
        have hj'P := ihp j' hj' hnotin.2
        have hj'Q : j' ∈ updateJobs jobs0 job.id markQueued :=
          hpresP j' hj'P hnotin.1
        exact mem_updateJobs_of_ne _ _ _ markQueued_id hj'Q hnotin.1
      · intro j hj j' hj' hid
        rcases List.mem_cons.1 hj with rfl | hjr
        · have hj'P := ihp j' hj' (by rw [hid]; exact hhdnotin)
          exact htermP j' hj'P hid
        · exact iht j hjr j' hj' hid

theorem mem_mkInitialJobs (links : List String) :
    ∀ j ∈ mkInitialJobs links, j.status = ScrapeStatus.IDLE
      ∧ j.statsFileDownloaded = false ∧ j.movesFileDownloaded = false := by
  intro j hj
  rw [mkInitialJobs, List.mem_filter] at hj
  rcases List.mem_map.1 hj.1 with ⟨url, _, hurl⟩
  subst hurl
  exact ⟨rfl, rfl, rfl⟩

theorem countCompleted_mkInitialJobs (links : List String) :
    countCompleted (mkInitialJobs links) = 0 := by
  rw [countCompleted, List.countP_eq_zero]
  intro j hj
  simp [(mem_mkInitialJobs links j hj).1]

/-- In the non-empty-listing branch, the run's final jobs array and file
list are exactly the bulk loop's outputs (whatever the compression step
does). -/
theorem handleBulkStart_ok_parts (env : FetchEnv) (anchors : List (Option String))
    (gen : List (String × String) → Option String)
    (hl : ¬ (extractMatchLinks anchors).length = 0) :
    (handleBulkStart env (Except.ok anchors) gen).files
      = (bulkLoop env (mkInitialJobs (extractMatchLinks anchors)).length
          (mkInitialJobs (extractMatchLinks anchors)) 0
          (mkInitialJobs (extractMatchLinks anchors)) []).2.1
    ∧ (handleBulkStart env (Except.ok anchors) gen).jobs
      = (bulkLoop env (mkInitialJobs (extractMatchLinks anchors)).length
          (mkInitialJobs (extractMatchLinks anchors)) 0
          (mkInitialJobs (extractMatchLinks anchors)) []).1 := by
  rw [handleBulkStart]
  simp only [fetchResultsPage]
  rw [if_neg hl]
  by_cases hf : 0 < (bulkLoop env (mkInitialJobs (extractMatchLinks anchors)).length
      (mkInitialJobs (extractMatchLinks anchors)) 0
      (mkInitialJobs (extractMatchLinks anchors)) []).2.1.length
  · rw [if_pos hf]
    exact ⟨rfl, rfl⟩
  · rw [if_neg hf]
    exact ⟨rfl, rfl⟩

/-- C4: a single job's failure does not halt a bulk run.  In every bulk run
with pairwise-distinct job ids: the final archive holds exactly two
documents per job that reached `COMPLETED` (and none for the others); every
scheduled job whose fetches fail ends in terminal `ERROR` with its error
message recorded, and every job whose fetches succeed ends `COMPLETED`.  In
the concrete three-job run where job 2's fetch fails, the archive holds
exactly 4 documents, the final statuses are `[COMPLETED, ERROR, COMPLETED]`
with the error `"boom"` recorded on job 2 only, and job 3's statistics
fetch is still attempted after job 2's failure. -/
theorem bulk_failure_isolation_spec :
    (∀ (env : FetchEnv) (anchors : List (Option String))
        (gen : List (String × String) → Option String),
      ((mkInitialJobs (extractMatchLinks anchors)).map (fun j => j.id)).Nodup →
      (handleBulkStart env (Except.ok anchors) gen).files.length
          = 2 * countCompleted (handleBulkStart env (Except.ok anchors) gen).jobs
      ∧ (∀ j ∈ mkInitialJobs (extractMatchLinks anchors),
          ∀ j' ∈ (handleBulkStart env (Except.ok anchors) gen).jobs, j'.id = j.id →
            (jobSucceeds env j = true → j'.status = ScrapeStatus.COMPLETED)
          ∧ (jobSucceeds env j = false →
              j'.status = ScrapeStatus.ERROR ∧ j'.error.isSome = true)))
  ∧ (handleBulkStart bulkEnv (Except.ok bulkAnchors) genOk).files.length = 4
  ∧ (handleBulkStart bulkEnv (Except.ok bulkAnchors) genOk).jobs.map (fun j => j.status)
      = [ScrapeStatus.COMPLETED, ScrapeStatus.ERROR, ScrapeStatus.COMPLETED]
  ∧ (handleBulkStart bulkEnv (Except.ok bulkAnchors) genOk).jobs.map (fun j => j.error)
      = [none, some "boom", none]
  ∧ Event.fetchData bulkIdC FetchKind.stats
      ∈ (handleBulkStart bulkEnv (Except.ok bulkAnchors) genOk).trace := by
  refine ⟨?_, by decide, by decide, by decide, by decide⟩
  intro env anchors gen hnd
  by_cases hl : (extractMatchLinks anchors).length = 0
  · have hempty : extractMatchLinks anchors = [] := List.length_eq_zero.1 hl
    constructor
    · rw [handleBulkStart]
      simp only [fetchResultsPage]
      rw [if_pos hl]
      rfl
    · intro j hj
      rw [hempty] at hj
      simp [mkInitialJobs] at hj
  · obtain ⟨hfiles, hjobs⟩ := handleBulkStart_ok_parts env anchors gen hl
    have hpend : ∀ j ∈ mkInitialJobs (extractMatchLinks anchors),
        ∀ j' ∈ mkInitialJobs (extractMatchLinks anchors), j'.id = j.id →
          j'.status ≠ ScrapeStatus.COMPLETED := by
      intro j _ j' hj' _
      simp [(mem_mkInitialJobs _ j' hj').1]
    have hmem : ∀ j ∈ mkInitialJobs (extractMatchLinks anchors),
        j.id ∈ (mkInitialJobs (extractMatchLinks anchors)).map (fun j => j.id) :=
      fun j hj => List.mem_map_of_mem _ hj
    obtain ⟨hf, hc, _, _, hterm⟩ := bulkLoop_spec env
      (mkInitialJobs (extractMatchLinks anchors)).length
      (mkInitialJobs (extractMatchLinks anchors)) 0
      (mkInitialJobs (extractMatchLinks anchors)) [] hnd hnd hmem hpend
    constructor
    · rw [hfiles, hjobs, hf, hc, countCompleted_mkInitialJobs]
      simp
    · intro j hj j' hj' hid
      rw [hjobs] at hj'
      exact hterm j hj j' hj' hid

/-- Witness for C4 at the concrete three-job run: the general
two-documents-per-completed-job law and the terminal-state law,
instantiated with its distinct-ids hypothesis discharged. -/
theorem bulk_failure_isolation_spec_witness :
    (handleBulkStart bulkEnv (Except.ok bulkAnchors) genOk).files.length
        = 2 * countCompleted (handleBulkStart bulkEnv (Except.ok bulkAnchors) genOk).jobs
    ∧ (∀ j ∈ mkInitialJobs (extractMatchLinks bulkAnchors),
        ∀ j' ∈ (handleBulkStart bulkEnv (Except.ok bulkAnchors) genOk).jobs, j'.id = j.id →
          (jobSucceeds bulkEnv j = true → j'.status = ScrapeStatus.COMPLETED)
        ∧ (jobSucceeds bulkEnv j = false →
            j'.status = ScrapeStatus.ERROR ∧ j'.error.isSome = true)) :=
  bulk_failure_isolation_spec.1 bulkEnv bulkAnchors genOk (by decide)

/-! ## Temporal structure of the bulk run (traces) -/

/-- Keep only fetch calls and pacing pauses. -/
def isFetchOrPause : Event → Bool
  | .fetchData _ _ => true
  | .pause _ => true
  | _ => false

/-- Keep only statistics fetch calls. -/
def isStatsFetch : Event → Bool
  | .fetchData _ FetchKind.stats => true
  | _ => false

/-- The fetch/pause pattern one job contributes to the bulk trace: its
statistics fetch; when that succeeds, the 500 ms pause and the moves fetch;
and the 1500 ms inter-job pause in every case. -/
def jobFetchTrace (env : FetchEnv) (j : MatchJob) : List Event :=
  (match env j.id FetchKind.stats with
   | .error _ => [Event.fetchData j.id FetchKind.stats]
   | .ok _ => [Event.fetchData j.id FetchKind.stats, Event.pause 500,
               Event.fetchData j.id FetchKind.moves])
  ++ [Event.pause 1500]

theorem bulkLoop_trace_filter (env : FetchEnv) (n : Nat) (js : List MatchJob) :
    ∀ (i : Nat) (jobs0 : List MatchJob) (files0 : List (String × JSVal)),
    (bulkLoop env n js i jobs0 files0).2.2.filter isFetchOrPause
      = js.flatMap (jobFetchTrace env) := by
  induction js with
  | nil => intro i jobs0 files0; simp [bulkLoop]
  | cons job rest ih =>
    intro i jobs0 files0
    cases hs : env job.id FetchKind.stats with
    | error e =>
      simp only [bulkLoop, processJob, hs]
      simp [List.filter_append, isFetchOrPause, jobFetchTrace, hs, ih]
    | ok st =>
      cases hm : env job.id FetchKind.moves with
      | error e =>
        simp only [bulkLoop, processJob, hs, hm]
        simp [List.filter_append, isFetchOrPause, jobFetchTrace, hs, ih]
      | ok mv =>
        simp only [bulkLoop, processJob, hs, hm]
        simp [List.filter_append, isFetchOrPause, jobFetchTrace, hs, ih]

theorem bulkLoop_stats_order (env : FetchEnv) (n : Nat) (js : List MatchJob) :
    ∀ (i : Nat) (jobs0 : List MatchJob) (files0 : List (String × JSVal)),
    (bulkLoop env n js i jobs0 files0).2.2.filter isStatsFetch
      = js.map (fun j => Event.fetchData j.id FetchKind.stats) := by
  induction js with
  | nil => intro i jobs0 files0; simp [bulkLoop]
  | cons job rest ih =>
    intro i jobs0 files0
    cases hs : env job.id FetchKind.stats with
    | error e =>
      simp only [bulkLoop, processJob, hs]
      simp [List.filter_append, isStatsFetch, ih]
    | ok st =>
      cases hm : env job.id FetchKind.moves with
      | error e =>
        simp only [bulkLoop, processJob, hs, hm]
        simp [List.filter_append, isStatsFetch, ih]
      | ok mv =>
        simp only [bulkLoop, processJob, hs, hm]
        simp [List.filter_append, isStatsFetch, ih]

/-- C5: bulk jobs run strictly sequentially, in the order of the
deduplicated link list.  The fetch/pause projection of the bulk loop's
trace is exactly the per-job segments in list order — statistics fetch,
then (on statistics success) the 0.5 s pause and the moves fetch, then the
1.5 s inter-job pause before the next job's first event; the statistics
fetches alone appear exactly once per job, in job order, also across
`handleBulkStart`; and within one job, the statistics result is
acknowledged (its `statsFileDownloaded` flag set in a `setJobs` snapshot)
strictly between the statistics fetch and the moves fetch. -/
theorem bulk_sequential_pacing_spec :
    (∀ (env : FetchEnv) (n i : Nat) (js jobs0 : List MatchJob)
        (files0 : List (String × JSVal)),
      (bulkLoop env n js i jobs0 files0).2.2.filter isFetchOrPause
        = js.flatMap (jobFetchTrace env))
  ∧ (∀ (env : FetchEnv) (anchors : List (Option String))
        (gen : List (String × String) → Option String),
      (handleBulkStart env (Except.ok anchors) gen).trace.filter isStatsFetch
        = (mkInitialJobs (extractMatchLinks anchors)).map
            (fun j => Event.fetchData j.id FetchKind.stats))
  ∧ (∀ (env : FetchEnv) (jobs0 : List MatchJob) (job : MatchJob) (st : JSVal),
      env job.id FetchKind.stats = Except.ok st →
      ∃ a b c, (processJob env jobs0 job).trace
          = [Event.setJobsEv a, Event.fetchData job.id FetchKind.stats,
             Event.setJobsEv b, Event.pause 500,
             Event.fetchData job.id FetchKind.moves] ++ c
        ∧ (∀ j' ∈ b, j'.id = job.id → j'.statsFileDownloaded = true)) := by
  refine ⟨fun env n i js jobs0 files0 => bulkLoop_trace_filter env n js i jobs0 files0,
    ?_, ?_⟩
  · intro env anchors gen
    rw [handleBulkStart]
    simp only [fetchResultsPage]
    by_cases hl : (extractMatchLinks anchors).length = 0
    · rw [if_pos hl]
      have hempty : mkInitialJobs (extractMatchLinks anchors) = [] := by
        rw [List.length_eq_zero.1 hl]
        rfl
      simp [isStatsFetch, hempty]
    · rw [if_neg hl]
      by_cases hf : 0 < (bulkLoop env (mkInitialJobs (extractMatchLinks anchors)).length
          (mkInitialJobs (extractMatchLinks anchors)) 0
          (mkInitialJobs (extractMatchLinks anchors)) []).2.1.length
      · rw [if_pos hf]
        simp [List.filter_append, isStatsFetch, bulkLoop_stats_order]
      · rw [if_neg hf]
        simp [List.filter_append, isStatsFetch, bulkLoop_stats_order]
  · intro env jobs0 job st hs
    cases hm : env job.id FetchKind.moves with
    | error e =>
      refine ⟨updateJobs jobs0 job.id markDownloading,
        updateJobs (updateJobs jobs0 job.id markDownloading) job.id markStatsDone,
        [Event.setJobsEv (updateJobs (updateJobs (updateJobs jobs0 job.id markDownloading)
          job.id markStatsDone) job.id (markError e))], ?_, ?_⟩
      · simp [processJob, hs, hm]
      · intro j' hj' hid
        obtain ⟨j, _, _, rfl⟩ := mem_updateJobs_of_eq _ _ _ hj' hid
        rfl
    | ok mv =>
      refine ⟨updateJobs jobs0 job.id markDownloading,
        updateJobs (updateJobs jobs0 job.id markDownloading) job.id markStatsDone,
        [Event.setJobsEv (updateJobs (updateJobs (updateJobs jobs0 job.id markDownloading)
          job.id markStatsDone) job.id markCompleted)], ?_, ?_⟩
      · simp [processJob, hs, hm]
      · intro j' hj' hid
        obtain ⟨j, _, _, rfl⟩ := mem_updateJobs_of_eq _ _ _ hj' hid
        rfl

/-- Witness for C5 at the concrete three-job run: the fetch/pause
projection of its trace is the expected sequential pattern, and the
statistics-fetch projection lists the three jobs in link order. -/
theorem bulk_sequential_pacing_spec_witness :
    (bulkLoop bulkEnv 3 (mkInitialJobs (extractMatchLinks bulkAnchors)) 0
        (mkInitialJobs (extractMatchLinks bulkAnchors)) []).2.2.filter isFetchOrPause
      = (mkInitialJobs (extractMatchLinks bulkAnchors)).flatMap (jobFetchTrace bulkEnv)
    ∧ (handleBulkStart bulkEnv (Except.ok bulkAnchors) genOk).trace.filter isStatsFetch
      = [Event.fetchData bulkIdA FetchKind.stats, Event.fetchData bulkIdB FetchKind.stats,
         Event.fetchData bulkIdC FetchKind.stats]
    ∧ (∃ a b c, (processJob bulkEnv (mkInitialJobs (extractMatchLinks bulkAnchors))
          { id := bulkIdA, url := "u", status := ScrapeStatus.QUEUED,
            statsFileDownloaded := false, movesFileDownloaded := false,
            error := none, matchTitle := none }).trace
        = [Event.setJobsEv a, Event.fetchData bulkIdA FetchKind.stats,
           Event.setJobsEv b, Event.pause 500,
           Event.fetchData bulkIdA FetchKind.moves] ++ c
      ∧ (∀ j' ∈ b, j'.id = bulkIdA → j'.statsFileDownloaded = true)) := by
  refine ⟨bulk_sequential_pacing_spec.1 bulkEnv 3 0 _ _ [], ?_, ?_⟩
  · rw [bulk_sequential_pacing_spec.2.1 bulkEnv bulkAnchors genOk]
    decide
  · exact bulk_sequential_pacing_spec.2.2 bulkEnv
      (mkInitialJobs (extractMatchLinks bulkAnchors))
      { id := bulkIdA, url := "u", status := ScrapeStatus.QUEUED,
        statsFileDownloaded := false, movesFileDownloaded := false,
        error := none, matchTitle := none }
      (JSVal.obj []) rfl

/-! ## Monotonicity of the download flags -/

/-- Positionwise monotonicity of the two download flags between two jobs
snapshots: same length, and at every position neither flag goes from `true`
back to `false`. -/
def flagMonoRel (s s' : List MatchJob) : Prop :=
  s.length = s'.length ∧ ∀ (i : Nat) (h : i < s.length) (h' : i < s'.length),
    (s[i].statsFileDownloaded = true → s'[i].statsFileDownloaded = true)
    ∧ (s[i].movesFileDownloaded = true → s'[i].movesFileDownloaded = true)

instance : IsTrans (List MatchJob) flagMonoRel := by
  refine ⟨fun a b c hab hbc => ⟨hab.1.trans hbc.1, ?_⟩⟩
  intro i h h'
  have hb : i < b.length := hab.1 ▸ h
  exact ⟨fun hx => (hbc.2 i hb h').1 ((hab.2 i h hb).1 hx),
         fun hx => (hbc.2 i hb h').2 ((hab.2 i h hb).2 hx)⟩

/-- An id-filtered `setJobs` update whose job transformer never clears a
flag is flag-monotone w.r.t. the previous snapshot. -/
theorem updateJobs_flagMono (js : List MatchJob) (tid : String) (f : MatchJob → MatchJob)
    (hf : ∀ j, (j.statsFileDownloaded = true → (f j).statsFileDownloaded = true)
             ∧ (j.movesFileDownloaded = true → (f j).movesFileDownloaded = true)) :
    flagMonoRel js (updateJobs js tid f) := by
  refine ⟨(updateJobs_length js tid f).symm, ?_⟩
  intro i h h'
  have hg : (updateJobs js tid f)[i] = if js[i].id = tid then f js[i] else js[i] := by
    simp only [updateJobs, List.getElem_map]
  rw [hg]
  by_cases hid : js[i].id = tid
  · rw [if_pos hid]
    exact hf _
  · rw [if_neg hid]
    exact ⟨id, id⟩

theorem markQueued_flagMono (js : List MatchJob) (tid : String) :
    flagMonoRel js (updateJobs js tid markQueued) :=
  updateJobs_flagMono js tid markQueued fun _ => ⟨id, id⟩

/-- The snapshots recorded by one `processJob` call form a flag-monotone
chain from the incoming jobs array, ending at the call's outgoing array. -/
theorem snapshots_processJob (env : FetchEnv) (jobs0 : List MatchJob) (job : MatchJob) :
    ∃ S, snapshots (processJob env jobs0 job).trace = S ++ [(processJob env jobs0 job).jobs]
    ∧ List.Chain flagMonoRel jobs0 (S ++ [(processJob env jobs0 job).jobs]) := by
  have m1 : flagMonoRel jobs0 (updateJobs jobs0 job.id markDownloading) :=
    updateJobs_flagMono jobs0 job.id markDownloading fun _ => ⟨id, id⟩
  cases hs : env job.id FetchKind.stats with
  | error e =>
    have hjobs : (processJob env jobs0 job).jobs
        = updateJobs (updateJobs jobs0 job.id markDownloading) job.id (markError e) := by
      simp [processJob, hs]
    refine ⟨[updateJobs jobs0 job.id markDownloading],
      by simp [processJob, hs, snapshots], ?_⟩
    rw [hjobs]
    exact List.Chain.cons m1 (List.Chain.cons
      (updateJobs_flagMono _ job.id (markError e) fun _ => ⟨id, id⟩) List.Chain.nil)
  | ok st =>
    have m2 : flagMonoRel (updateJobs jobs0 job.id markDownloading)
        (updateJobs (updateJobs jobs0 job.id markDownloading) job.id markStatsDone) :=
      updateJobs_flagMono _ job.id markStatsDone fun _ => ⟨fun _ => rfl, id⟩
    cases hm : env job.id FetchKind.moves with
    | error e =>
      have hjobs : (processJob env jobs0 job).jobs
          = updateJobs (updateJobs (updateJobs jobs0 job.id markDownloading)
              job.id markStatsDone) job.id (markError e) := by
        simp [processJob, hs, hm]
      refine ⟨[updateJobs jobs0 job.id markDownloading,
        updateJobs (updateJobs jobs0 job.id markDownloading) job.id markStatsDone],
        by simp [processJob, hs, hm, snapshots], ?_⟩
      rw [hjobs]
      exact List.Chain.cons m1 (List.Chain.cons m2
        (List.Chain.cons (updateJobs_flagMono _ job.id (markError e) fun _ => ⟨id, id⟩)
          List.Chain.nil))
    | ok mv =>
      have hjobs : (processJob env jobs0 job).jobs
          = updateJobs (updateJobs (updateJobs jobs0 job.id markDownloading)
              job.id markStatsDone) job.id markCompleted := by
        simp [processJob, hs, hm]
      refine ⟨[updateJobs jobs0 job.id markDownloading,
        updateJobs (updateJobs jobs0 job.id markDownloading) job.id markStatsDone],
        by simp [processJob, hs, hm, snapshots], ?_⟩
      rw [hjobs]
      exact List.Chain.cons m1 (List.Chain.cons m2
        (List.Chain.cons (updateJobs_flagMono _ job.id markCompleted fun _ => ⟨id, fun _ => rfl⟩)
          List.Chain.nil))

/-- The cons-step trace of the bulk loop, with the file accumulator of the
recursive call abstracted away. -/
theorem bulkLoop_cons_trace (env : FetchEnv) (n : Nat) (job : MatchJob)
    (rest : List MatchJob) (i : Nat) (jobs0 : List MatchJob)
    (files0 : List (String × JSVal)) :
    ∃ files', (bulkLoop env n (job :: rest) i jobs0 files0).2.2
      = ([Event.setJobsEv (updateJobs jobs0 job.id markQueued),
          Event.statusMsg ("Processing " ++ toString (i + 1) ++ " of "
            ++ toString n ++ "...")]
          ++ (processJob env (updateJobs jobs0 job.id markQueued) job).trace
          ++ [Event.pause 1500])
        ++ (bulkLoop env n rest (i + 1)
            (processJob env (updateJobs jobs0 job.id markQueued) job).jobs files').2.2 := by
  cases hr : (processJob env (updateJobs jobs0 job.id markQueued) job).result with
  | some pair =>
    obtain ⟨st, mv⟩ := pair
    refine ⟨files0 ++ [((generateFilenames st (i + 1)).statsName, st),
      ("Moves/" ++ (generateFilenames st (i + 1)).movesName, mv)], ?_⟩
    rw [bulkLoop, hr]
  | none =>
    refine ⟨files0, ?_⟩
    rw [bulkLoop, hr]

/-- Along the bulk loop, the sequence of `setJobs` snapshots is a
flag-monotone chain from the incoming jobs array. -/
theorem bulkLoop_snapshots_chain (env : FetchEnv) (n : Nat) (js : List MatchJob) :
    ∀ (i : Nat) (jobs0 : List MatchJob) (files0 : List (String × JSVal)),
    List.Chain flagMonoRel jobs0 (snapshots (bulkLoop env n js i jobs0 files0).2.2) := by
  induction js with
  | nil =>
    intro i jobs0 files0
    simp only [bulkLoop, snapshots, List.filterMap_nil]
    exact List.Chain.nil
  | cons job rest ih =>
    intro i jobs0 files0
    obtain ⟨files', htr⟩ := bulkLoop_cons_trace env n job rest i jobs0 files0
    obtain ⟨S, hsnap, hchain⟩ :=
      snapshots_processJob env (updateJobs jobs0 job.id markQueued) job
    rw [htr]
    rw [snapshots, List.filterMap_append, List.filterMap_append, List.filterMap_append]
    have hsnap2 : snapshots (processJob env (updateJobs jobs0 job.id markQueued) job).trace
        = S ++ [(processJob env (updateJobs jobs0 job.id markQueued) job).jobs] := hsnap
    rw [snapshots] at hsnap2
    rw [hsnap2]
    have hgoal : ([updateJobs jobs0 job.id markQueued] ++
        (S ++ [(processJob env (updateJobs jobs0 job.id markQueued) job).jobs]) ++ [])
        ++ (bulkLoop env n rest (i + 1)
            (processJob env (updateJobs jobs0 job.id markQueued) job).jobs files').2.2.filterMap
            (fun e => match e with | Event.setJobsEv js => some js | _ => none)
        = (updateJobs jobs0 job.id markQueued :: S)
          ++ (processJob env (updateJobs jobs0 job.id markQueued) job).jobs
            :: snapshots (bulkLoop env n rest (i + 1)
              (processJob env (updateJobs jobs0 job.id markQueued) job).jobs files').2.2 := by
      rw [snapshots]
      simp
    rw [show ([Event.setJobsEv (updateJobs jobs0 job.id markQueued),
        Event.statusMsg ("Processing " ++ toString (i + 1) ++ " of "
          ++ toString n ++ "...")].filterMap
          (fun e => match e with | Event.setJobsEv js => some js | _ => none))
        = [updateJobs jobs0 job.id markQueued] from rfl]
    rw [show ([Event.pause 1500].filterMap
          (fun e => match e with | Event.setJobsEv js => some js | _ => none))
        = [] from rfl]
    rw [hgoal, List.chain_split]
    constructor
    · exact List.Chain.cons (markQueued_flagMono jobs0 job.id) hchain
    · exact ih (i + 1) _ files'

/-- C9: within one run, the per-job download flags are monotone.  Along the
sequence of jobs-array snapshots a bulk run records from the moment its
jobs are created (i.e. dropping the initial `setJobs([])` reset), every
later snapshot relates to every earlier one by `flagMonoRel`: at every job
position, a `statsFileDownloaded` or `movesFileDownloaded` flag that is
`true` is never reset to `false` by any subsequent update — across the
queueing, in-progress, success and error transitions alike. -/
theorem flags_monotonic_spec (env : FetchEnv) (page : Except String (List (Option String)))
    (gen : List (String × String) → Option String) :
    List.Pairwise flagMonoRel ((snapshots (handleBulkStart env page gen).trace).drop 1) := by
  rw [handleBulkStart]
  cases hp : fetchResultsPage page with
  | error e => simp [snapshots]
  | ok links =>
    dsimp only
    by_cases hl : links.length = 0
    · rw [if_pos hl]
      simp [snapshots]
    · rw [if_neg hl]
      have hchain := bulkLoop_snapshots_chain env (mkInitialJobs links).length
        (mkInitialJobs links) 0 (mkInitialJobs links) []
      have hpw := List.chain_iff_pairwise.1 hchain
      by_cases hf : 0 < (bulkLoop env (mkInitialJobs links).length (mkInitialJobs links) 0
          (mkInitialJobs links) []).2.1.length
      · rw [if_pos hf]
        simpa [snapshots, List.filterMap_append] using hpw
      · rw [if_neg hf]
        simpa [snapshots, List.filterMap_append] using hpw

/-- Witness for C9 at the concrete three-job run (one of whose jobs fails,
exercising the error transition as well). -/
theorem flags_monotonic_spec_witness :
    List.Pairwise flagMonoRel
      ((snapshots (handleBulkStart bulkEnv (Except.ok bulkAnchors) genOk).trace).drop 1) :=
  flags_monotonic_spec bulkEnv (Except.ok bulkAnchors) genOk
